import Mathlib

/-!
# Verification of the router_benchmark command-authorization core

A shallow embedding, in Lean 4, of the security-relevant parts of the
`router_benchmark` repository:

* `center_server/auth.py` — HMAC-SHA256 signing/verification, nonce replay
  protection, client/admin credential revocation;
* `ping_benchmark.py` — the device-side re-implementation of command
  signature verification with its local nonce cache;
* `center_server/commands.py` — parameter validators, the injection
  sanitizer, command template substitution, the per-client pending queue
  and the audit log;
* `center_server/shell_manager.py` — the shell-session table, the session
  cap and the idle-expiry sweep.

Modelling conventions, used consistently below:

* Python `str` is Lean `String` (a list of Unicode scalar values); byte-level
  operations go through an explicit UTF-8 encoder.
* Python `dict` is an insertion-ordered association list with unique keys;
  `d[k] = v` updates in place when the key is present and appends otherwise,
  `pop`/`del` remove the key — exactly Python's ordering behaviour.  Python
  `==` on dicts ignores insertion order, which is modelled by lookup
  equality (`pyGet d k = pyGet d' k` for every `k`).
* ISO-8601 timestamps are modelled by their value as epoch seconds (an
  `Int`): `datetime.now()` becomes an explicit `now : Int` argument,
  `datetime.fromisoformat` on a well-formed timestamp string is the identity
  on that value, and a malformed timestamp string (a `PyVal.str`) makes it
  fail with the `ValueError` that the source catches.  Only differences of
  timestamps are ever used, so this is faithful.
* Machine-level hashing (SHA-256, HMAC) is implemented in full over `Nat`
  bytes, with word arithmetic taken modulo `2 ^ 32` explicitly.
* Nondeterministic inputs of the source (current time, `uuid4`,
  `secrets.token_hex` nonces) are explicit arguments.
* File-backed stores (`client_secrets.json`, `used_nonces.json`,
  `pending_commands.json`, the audit log) are explicit state values threaded
  through the functions; a load-modify-save cycle of the source is one pure
  state transition here.
-/

namespace RB

/-! ## Association lists: the Python `dict` model -/

/-- First-match lookup, Python `d.get(k)` / `d[k]`. -/
def alGet {α : Type} : List (String × α) → String → Option α
  | [], _ => none
  | (k1, v) :: rest, k => if k1 = k then some v else alGet rest k

/-- Python `d[k] = v`: update in place when present, append otherwise. -/
def alSet {α : Type} : List (String × α) → String → α → List (String × α)
  | [], k, v => [(k, v)]
  | (k1, v1) :: rest, k, v =>
    if k1 = k then (k1, v) :: rest else (k1, v1) :: alSet rest k v

/-- Python `del d[k]` / `d.pop(k)` (the dictionary part). On a dict with
unique keys this removes the single binding of `k`. -/
def alRemove {α : Type} : List (String × α) → String → List (String × α)
  | [], _ => []
  | (k1, v1) :: rest, k =>
    if k1 = k then alRemove rest k else (k1, v1) :: alRemove rest k

/-- Python `k in d`. -/
def alContains {α : Type} (d : List (String × α)) (k : String) : Bool :=
  (alGet d k).isSome

/-! ## JSON values

`PyVal` covers the JSON-serializable values the command protocol actually
moves around: strings, integers (which also stand for well-formed ISO
timestamp strings, see the header), and nested objects (the `params` map
inside a signed command). -/

inductive PyVal : Type where
  | str (s : String)
  | int (n : Int)
  | dict (d : List (String × PyVal))

/-- A Python dict with JSON values. -/
abbrev PyDict := List (String × PyVal)

mutual
/-- Structural equality of JSON values, Python `==` on the leaves. -/
def pyValBeq : PyVal → PyVal → Bool
  | .str a, .str b => a = b
  | .int a, .int b => a = b
  | .dict a, .dict b => pyEntsBeq a b
  | _, _ => false

def pyEntsBeq : List (String × PyVal) → List (String × PyVal) → Bool
  | [], [] => true
  | (k1, v1) :: r1, (k2, v2) :: r2 => k1 = k2 && pyValBeq v1 v2 && pyEntsBeq r1 r2
  | _, _ => false
end

/-! ## Canonical JSON serialization

`json.dumps(payload, sort_keys=True, separators=(',', ':'))` with the
default `ensure_ascii=True`: keys sorted by code point at every nesting
level, no whitespace, strings escaped with the `json` module's table
(`\"`, `\\`, `\b`, `\t`, `\n`, `\f`, `\r`, `\uXXXX` for other control and
all non-ASCII characters, surrogate pairs above U+FFFF). -/

/-- The `{` character (written by code point to keep it out of literals). -/
def lbr : Char := Char.ofNat 123

/-- The `}` character. -/
def rbr : Char := Char.ofNat 125

/-- The `"` character. -/
def qch : Char := Char.ofNat 34

/-- The backslash character. -/
def bsl : Char := Char.ofNat 92

/-- Lowercase hex digit for `n < 16`. -/
def hexDigit (n : Nat) : Char :=
  if n < 10 then Char.ofNat (48 + n) else Char.ofNat (87 + n)

/-- `\uXXXX` for a code unit below `0x10000`. -/
def uEsc4 (n : Nat) : List Char :=
  [bsl, 'u', hexDigit (n / 4096 % 16), hexDigit (n / 256 % 16),
   hexDigit (n / 16 % 16), hexDigit (n % 16)]

/-- `\uXXXX` escape of an arbitrary scalar value, as a surrogate pair when
above U+FFFF. -/
def uEscape (n : Nat) : List Char :=
  if n < 65536 then uEsc4 n
  else uEsc4 (55296 + (n - 65536) / 1024) ++ uEsc4 (56320 + (n - 65536) % 1024)

/-- The `json` module's escape of one character (`ensure_ascii=True`). -/
def jsonEscapeChar (c : Char) : List Char :=
  if c = qch then [bsl, qch]
  else if c = bsl then [bsl, bsl]
  else if c.toNat = 8 then [bsl, 'b']
  else if c.toNat = 9 then [bsl, 't']
  else if c.toNat = 10 then [bsl, 'n']
  else if c.toNat = 12 then [bsl, 'f']
  else if c.toNat = 13 then [bsl, 'r']
  else if c.toNat < 32 ∨ 127 ≤ c.toNat then uEscape c.toNat
  else [c]

/-- A JSON string literal: quote, escaped characters, quote. -/
def jsonString (s : String) : List Char :=
  qch :: (s.data.map jsonEscapeChar).flatten ++ [qch]

/-- Decimal rendering of an integer, as `json.dumps` prints it. -/
def intChars (n : Int) : List Char :=
  if n < 0 then '-' :: Nat.toDigits 10 n.natAbs else Nat.toDigits 10 n.toNat

/-- Code-point lexicographic `≤` on character lists — Python's `<` on `str`
restricted to what `sorted` needs. -/
def charListLe : List Char → List Char → Bool
  | [], _ => true
  | _ :: _, [] => false
  | a :: as2, b :: bs2 =>
    if a.toNat < b.toNat then true
    else if b.toNat < a.toNat then false
    else charListLe as2 bs2

/-- Key order used by `sort_keys=True`. -/
def strLe (a b : String) : Bool := charListLe a.data b.data

/-- Insert an already-serialized entry into a key-sorted list (stable). -/
def insPair (p : String × List Char) :
    List (String × List Char) → List (String × List Char)
  | [] => [p]
  | q :: rest => if strLe p.1 q.1 then p :: q :: rest else q :: insPair p rest

/-- Insertion sort of serialized entries by key — `sorted` is stable, and
real dicts have no duplicate keys, so any stable sort is faithful. -/
def sortPairs : List (String × List Char) → List (String × List Char)
  | [] => []
  | p :: rest => insPair p (sortPairs rest)

/-- Render sorted entries with `separators=(',', ':')`. -/
def joinEntries : List (String × List Char) → List Char
  | [] => []
  | [(k, v)] => jsonString k ++ ':' :: v
  | (k, v) :: rest => jsonString k ++ ':' :: v ++ ',' :: joinEntries rest

mutual
/-- `json.dumps(v, sort_keys=True, separators=(',', ':'))`. -/
def jsonOfVal : PyVal → List Char
  | .str s => jsonString s
  | .int n => intChars n
  | .dict d => lbr :: joinEntries (sortPairs (entryStrings d)) ++ [rbr]

/-- Entries of an object with their serialized values, in source order;
sorting by key happens afterwards and does not change any entry's bytes. -/
def entryStrings : List (String × PyVal) → List (String × List Char)
  | [] => []
  | (k, v) :: rest => (k, jsonOfVal v) :: entryStrings rest
end

/-- The canonical form of a payload dict
(`auth.create_signature`'s `canonical` local). -/
def canonicalJson (payload : PyDict) : List Char := jsonOfVal (.dict payload)

/-! ## UTF-8 -/

/-- UTF-8 encoding of one scalar value, as a list of byte values. -/
def utf8Char (c : Char) : List Nat :=
  let n := c.toNat
  if n < 128 then [n]
  else if n < 2048 then [192 + n / 64, 128 + n % 64]
  else if n < 65536 then [224 + n / 4096, 128 + n / 64 % 64, 128 + n % 64]
  else [240 + n / 262144, 128 + n / 4096 % 64, 128 + n / 64 % 64, 128 + n % 64]

/-- Python `s.encode('utf-8')`. -/
def utf8 (s : List Char) : List Nat := (s.map utf8Char).flatten

/-! ## SHA-256

A complete implementation over `Nat`, with 32-bit words kept below `2 ^ 32`
by explicit `%`.  The state is a structure of eight named words so that the
digest is eight 4-byte groups by construction. -/

/-- `2 ^ 32`. -/
def m32 : Nat := 4294967296

/-- 32-bit addition. -/
def wadd (a b : Nat) : Nat := (a + b) % m32

/-- Rotate a 32-bit word right by `k` (for `0 < k < 32`). -/
def rotr (k a : Nat) : Nat :=
  (a % m32) / 2 ^ k + (a % m32) % 2 ^ k * 2 ^ (32 - k)

/-- Shift a 32-bit word right by `k`. -/
def shr (k a : Nat) : Nat := (a % m32) / 2 ^ k

/-- Bitwise complement of a 32-bit word. -/
def wnot (a : Nat) : Nat := 4294967295 - a % m32

/-- The eight working registers / hash words. -/
structure Regs where
  ra : Nat
  rb : Nat
  rc : Nat
  rd : Nat
  re : Nat
  rf : Nat
  rg : Nat
  rh : Nat

/-- SHA-256 initial hash value. -/
def sha256IV : Regs :=
  ⟨1779033703, 3144134277, 1013904242, 2773480762,
   1359893119, 2600822924, 528734635, 1541459225⟩

/-- The 64 SHA-256 round constants. -/
def sha256K : List Nat :=
  [1116352408, 1899447441, 3049323471, 3921009573,
   961987163, 1508970993, 2453635748, 2870763221,
   3624381080, 310598401, 607225278, 1426881987,
   1925078388, 2162078206, 2614888103, 3248222580,
   3835390401, 4022224774, 264347078, 604807628,
   770255983, 1249150122, 1555081692, 1996064986,
   2554220882, 2821834349, 2952996808, 3210313671,
   3336571891, 3584528711, 113926993, 338241895,
   666307205, 773529912, 1294757372, 1396182291,
   1695183700, 1986661051, 2177026350, 2456956037,
   2730485921, 2820302411, 3259730800, 3345764771,
   3516065817, 3600352804, 4094571909, 275423344,
   430227734, 506948616, 659060556, 883997877,
   958139571, 1322822218, 1537002063, 1747873779,
   1955562222, 2024104815, 2227730452, 2361852424,
   2428436474, 2756734187, 3204031479, 3329325298]

/-- Big sigma 0. -/
def bsig0 (x : Nat) : Nat := rotr 2 x ^^^ rotr 13 x ^^^ rotr 22 x

/-- Big sigma 1. -/
def bsig1 (x : Nat) : Nat := rotr 6 x ^^^ rotr 11 x ^^^ rotr 25 x

/-- Small sigma 0. -/
def ssig0 (x : Nat) : Nat := rotr 7 x ^^^ rotr 18 x ^^^ shr 3 x

/-- Small sigma 1. -/
def ssig1 (x : Nat) : Nat := rotr 17 x ^^^ rotr 19 x ^^^ shr 10 x

/-- Choose. -/
def chF (x y z : Nat) : Nat := x &&& y ^^^ wnot x &&& z

/-- Majority. -/
def majF (x y z : Nat) : Nat := x &&& y ^^^ x &&& z ^^^ y &&& z

/-- One compression round on constant `k` and schedule word `w`. -/
def sha256Round (st : Regs) (kw : Nat × Nat) : Regs :=
  let t1 := wadd st.rh (wadd (bsig1 st.re)
    (wadd (chF st.re st.rf st.rg) (wadd kw.1 kw.2)))
  let t2 := wadd (bsig0 st.ra) (majF st.ra st.rb st.rc)
  ⟨wadd t1 t2, st.ra, st.rb, st.rc, wadd st.rd t1, st.re, st.rf, st.rg⟩

/-- Extend the message schedule: `count` further words, most recent first in
the accumulator. -/
def extendW : Nat → List Nat → List Nat
  | 0, acc => acc.reverse
  | n + 1, acc =>
    let w := wadd (wadd (acc.getD 15 0) (ssig0 (acc.getD 14 0)))
      (wadd (acc.getD 6 0) (ssig1 (acc.getD 1 0)))
    extendW n (w :: acc)

/-- The 64-word message schedule of a 16-word block. -/
def schedule (block : List Nat) : List Nat := extendW 48 block.reverse

/-- Compress one 16-word block into the running hash. -/
def sha256Compress (h : Regs) (block : List Nat) : Regs :=
  let r := (sha256K.zip (schedule block)).foldl sha256Round h
  ⟨wadd h.ra r.ra, wadd h.rb r.rb, wadd h.rc r.rc, wadd h.rd r.rd,
   wadd h.re r.re, wadd h.rf r.rf, wadd h.rg r.rg, wadd h.rh r.rh⟩

/-- Big-endian bytes of `n`, exactly `k` of them. -/
def bytesBE : Nat → Nat → List Nat
  | 0, _ => []
  | k + 1, n => bytesBE k (n / 256) ++ [n % 256]

/-- SHA-256 padding: `0x80`, zeros to 56 mod 64, 8-byte bit length. -/
def sha256Pad (msg : List Nat) : List Nat :=
  msg ++ 128 :: List.replicate ((119 - msg.length % 64) % 64) 0
    ++ bytesBE 8 (8 * msg.length)

/-- Group bytes into big-endian 32-bit words. -/
def toWords : List Nat → List Nat
  | b0 :: b1 :: b2 :: b3 :: rest =>
    (b0 % 256 * 16777216 + b1 % 256 * 65536 + b2 % 256 * 256 + b3 % 256)
      :: toWords rest
  | _ => []

/-- Group words into 16-word blocks. -/
def toBlocks : List Nat → List (List Nat)
  | w0 :: w1 :: w2 :: w3 :: w4 :: w5 :: w6 :: w7 :: w8 :: w9 :: w10 :: w11
      :: w12 :: w13 :: w14 :: w15 :: rest =>
    [w0, w1, w2, w3, w4, w5, w6, w7, w8, w9, w10, w11, w12, w13, w14, w15]
      :: toBlocks rest
  | _ => []

/-- The four big-endian bytes of a hash word. -/
def wordBytes (w : Nat) : List Nat :=
  [w / 16777216 % 256, w / 65536 % 256, w / 256 % 256, w % 256]

/-- The 32 digest bytes of a final state. -/
def regsBytes (h : Regs) : List Nat :=
  wordBytes h.ra ++ wordBytes h.rb ++ wordBytes h.rc ++ wordBytes h.rd ++
  wordBytes h.re ++ wordBytes h.rf ++ wordBytes h.rg ++ wordBytes h.rh

/-- SHA-256 of a byte list. -/
def sha256 (msg : List Nat) : List Nat :=
  regsBytes ((toBlocks (toWords (sha256Pad msg))).foldl sha256Compress sha256IV)

/-! ## HMAC-SHA256 and hex digests -/

/-- HMAC-SHA256 (block size 64). -/
def hmacSha256 (key msg : List Nat) : List Nat :=
  let k1 := if 64 < key.length then sha256 key else key
  let k2 := k1 ++ List.replicate (64 - k1.length) 0
  sha256 ((k2.map (· ^^^ 92)) ++ sha256 ((k2.map (· ^^^ 54)) ++ msg))

/-- Lowercase hex of one byte. -/
def hexByte (b : Nat) : List Char := [hexDigit (b / 16 % 16), hexDigit (b % 16)]

/-- Python's `.hexdigest()`. -/
def hexOfBytes (bs : List Nat) : String := String.mk ((bs.map hexByte).flatten)

/-! ## auth.py — HMAC signing and verification -/

/-- `auth.TIMESTAMP_TOLERANCE_SECONDS`. -/
def TIMESTAMP_TOLERANCE_SECONDS : Int := 300

/-- `auth.NONCE_EXPIRY_SECONDS`. -/
def NONCE_EXPIRY_SECONDS : Int := 600

/-- The digest bytes `create_signature` hex-encodes: HMAC-SHA256 of the
canonical payload under the secret, both UTF-8 encoded. -/
def signatureBytes (payload : PyDict) (secret_key : String) : List Nat :=
  hmacSha256 (utf8 secret_key.data) (utf8 (canonicalJson payload))

/-- `auth.create_signature`: hex HMAC-SHA256 of the canonical payload. -/
def create_signature (payload : PyDict) (secret_key : String) : String :=
  hexOfBytes (signatureBytes payload secret_key)

/-- `str.isascii()`: every character is below `U+0080`. -/
def strAscii (s : String) : Bool := s.data.all fun c => c.toNat < 128

/-- `hmac.compare_digest` on two `str` arguments: equality (computed in
constant time by CPython) when both strings are ASCII-only; on a non-ASCII
argument CPython raises `TypeError`, modelled as `none`. -/
def compare_digest (a b : String) : Option Bool :=
  if strAscii a && strAscii b then some (a = b) else none

/-- `auth.verify_signature`: `none` stands for the `TypeError` that
`hmac.compare_digest` raises on a non-ASCII signature string (the expected
signature is a hex digest, always ASCII). -/
def verify_signature (payload : PyDict) (signature : String)
    (secret_key : String) : Option Bool :=
  compare_digest signature (create_signature payload secret_key)

/-! ## auth.py — credential stores -/

/-- One record of `client_secrets.json`. -/
structure ClientInfo where
  secret_key : String
  created_at : Int
  enabled : Bool
  revoked_at : Option Int := none
deriving DecidableEq

/-- The contents of `client_secrets.json`. -/
abbrev ClientStore := List (String × ClientInfo)

/-- One record of `admin_secrets.json` (keyed by the api key itself). -/
structure AdminInfo where
  name : String
  created_at : Int
  enabled : Bool
  revoked_at : Option Int := none
deriving DecidableEq

/-- The contents of `admin_secrets.json`. -/
abbrev AdminStore := List (String × AdminInfo)

/-- `auth.get_client_secret`: the key, provided the client exists and is
enabled. -/
def get_client_secret (store : ClientStore) (client_id : String) :
    Option String :=
  match alGet store client_id with
  | some info => if info.enabled then some info.secret_key else none
  | none => none

/-- `auth.revoke_client`: flips `enabled` off and stamps `revoked_at` when
the record exists (enabled or not), returning whether it did; the record is
never removed. -/
def revoke_client (store : ClientStore) (client_id : String) (now : Int) :
    Bool × ClientStore :=
  match alGet store client_id with
  | some info =>
    (true, alSet store client_id { info with enabled := false, revoked_at := some now })
  | none => (false, store)

/-- `auth.revoke_admin_key`, same shape as `revoke_client`. -/
def revoke_admin_key (store : AdminStore) (api_key : String) (now : Int) :
    Bool × AdminStore :=
  match alGet store api_key with
  | some info =>
    (true, alSet store api_key { info with enabled := false, revoked_at := some now })
  | none => (false, store)

/-! ## auth.py — nonce store and command verification -/

/-- `used_nonces.json`: nonce value to first-seen time. Nonces are dict
values from the wire, so keys are `PyVal`s. -/
abbrev NonceStore := List (PyVal × Int)

/-- Lookup in the nonce store. -/
def nonceGet : NonceStore → PyVal → Option Int
  | [], _ => none
  | (k, t) :: rest, v => if pyValBeq k v then some t else nonceGet rest v

/-- Insert / overwrite in the nonce store (Python `nonces[nonce] = now`). -/
def nonceSet : NonceStore → PyVal → Int → NonceStore
  | [], v, t => [(v, t)]
  | (k, t1) :: rest, v, t =>
    if pyValBeq k v then (k, t) :: rest else (k, t1) :: nonceSet rest v t

/-- `auth.is_nonce_used`. -/
def is_nonce_used (ns : NonceStore) (nonce : PyVal) : Bool :=
  (nonceGet ns nonce).isSome

/-- `auth.cleanup_old_nonces`: drop entries older than
`NONCE_EXPIRY_SECONDS`. -/
def cleanup_old_nonces (now : Int) (ns : NonceStore) : NonceStore :=
  ns.filter (fun e => decide (now - e.2 ≤ NONCE_EXPIRY_SECONDS))

/-- `auth.mark_nonce_used`: record the nonce at `now`, then garbage-collect
old entries, then save. -/
def mark_nonce_used (now : Int) (nonce : PyVal) (ns : NonceStore) : NonceStore :=
  cleanup_old_nonces now (nonceSet ns nonce now)

/-- Why `auth.verify_command_signature` said no (or `valid`).  `typeErr`
marks the paths where CPython raises an uncaught `TypeError` instead of
returning: `compare_digest` on a non-string signature value, or on a
signature string containing a non-ASCII character. -/
inductive VerifyErr : Type where
  | missingField
  | badSignature
  | expired
  | badTimestamp
  | replay
  | noKey
  | typeErr
  | valid
deriving DecidableEq

/-- Result of the server-side `verify_command_signature`: the returned pair,
plus the (mutated, then restored) command dict and the nonce store. -/
structure SVResult where
  ok : Bool
  err : VerifyErr
  cmd : PyDict
  nonces : NonceStore

/-- `auth.verify_command_signature`: field presence, signature over the dict
without its `signature` entry (popped, then put back), timestamp within
`TIMESTAMP_TOLERANCE_SECONDS` of `now`, nonce unseen; on success the nonce
is recorded.  The `typeErr` outcome models the uncaught `TypeError` of
`compare_digest` on a non-string or non-ASCII signature — there the raise
aborts the function between pop and restore, so the dict stays stripped,
matching the abandoned mutation. -/
def verify_command_signature (command_data : PyDict) (secret_key : String)
    (now : Int) (ns : NonceStore) : SVResult :=
  if ¬ alContains command_data "timestamp" then
    ⟨false, .missingField, command_data, ns⟩
  else if ¬ alContains command_data "nonce" then
    ⟨false, .missingField, command_data, ns⟩
  else
    match alGet command_data "signature" with
    | some (.str s) =>
      match verify_signature (alRemove command_data "signature") s secret_key with
      | none => ⟨false, .typeErr, alRemove command_data "signature", ns⟩
      | some ok =>
        if ¬ ok then
          ⟨false, .badSignature,
           alSet (alRemove command_data "signature") "signature" (.str s), ns⟩
        else
          match alGet command_data "timestamp" with
          | some (.int t) =>
            if TIMESTAMP_TOLERANCE_SECONDS < |now - t| then
              ⟨false, .expired,
               alSet (alRemove command_data "signature") "signature" (.str s), ns⟩
            else
              match alGet command_data "nonce" with
              | some nv =>
                if is_nonce_used ns nv then
                  ⟨false, .replay,
                   alSet (alRemove command_data "signature") "signature" (.str s), ns⟩
                else
                  ⟨true, .valid,
                   alSet (alRemove command_data "signature") "signature" (.str s),
                   mark_nonce_used now nv ns⟩
              | none =>
                  ⟨false, .missingField,
                   alSet (alRemove command_data "signature") "signature" (.str s), ns⟩
          | some _ =>
              ⟨false, .badTimestamp,
               alSet (alRemove command_data "signature") "signature" (.str s), ns⟩
          | none =>
              ⟨false, .missingField,
               alSet (alRemove command_data "signature") "signature" (.str s), ns⟩
    | some _ => ⟨false, .typeErr, alRemove command_data "signature", ns⟩
    | none => ⟨false, .missingField, command_data, ns⟩

/-- `auth.sign_command`: stamp `timestamp`, `nonce`, `client_id`, sign the
stamped dict, attach the signature.  `now` and `nonce` stand for
`datetime.now()` and `generate_nonce()`. -/
def sign_command (store : ClientStore) (command_data : PyDict)
    (client_id : String) (now : Int) (nonce : String) : Option PyDict :=
  match get_client_secret store client_id with
  | none => none
  | some secret_key =>
    let sc := alSet (alSet (alSet command_data "timestamp" (.int now))
      "nonce" (.str nonce)) "client_id" (.str client_id)
    some (alSet sc "signature" (.str (create_signature sc secret_key)))

/-! ## ping_benchmark.py — the device-side `verify_command_signature`

The device keeps its own nonce cache: a `set` of seen nonces plus the time
of the last cache purge.  The purge (run lazily inside verification, before
the nonce lookup) drops the *entire* cache once more than 600 seconds have
passed since the previous purge — it is not a per-nonce expiry. -/

/-- `nonce in used_nonces` on the device's `set`. -/
def nonceMem (v : PyVal) : List PyVal → Bool
  | [] => false
  | n :: rest => pyValBeq n v || nonceMem v rest

/-- The device agent's replay-protection state
(`self.used_nonces`, `self.nonce_cleanup_time`). -/
structure DevState where
  used_nonces : List PyVal
  nonce_cleanup_time : Int

/-- Result of the device-side verification: the returned validity plus the
updated nonce state.  The device builds a filtered copy of the command dict
instead of mutating it, so no dict comes back. -/
structure DevResult where
  ok : Bool
  err : VerifyErr
  st : DevState

/-- The nonce step of the device-side verification, after the lazy cache
purge has produced `st1`: refuse a seen nonce, record an unseen one. -/
def dev_nonce_phase (command_data : PyDict) (st1 : DevState) : DevResult :=
  match alGet command_data "nonce" with
  | some nv =>
    if nonceMem nv st1.used_nonces then ⟨false, .replay, st1⟩
    else ⟨true, .valid, ⟨nv :: st1.used_nonces, st1.nonce_cleanup_time⟩⟩
  | none => ⟨false, .missingField, st1⟩

/-- `PingBenchmark.verify_command_signature` (`ping_benchmark.py`): refuse
without a configured secret (`if not self.secret_key` — the empty string is
falsy); check field presence; recompute the HMAC over a copy of the dict
without its `signature` entry; check `|now - timestamp| <= 300`; purge the
*whole* nonce cache when the last purge is more than 600 seconds old; then
refuse a seen nonce and record an unseen one. -/
def dev_verify_command_signature (secret_key : String) (command_data : PyDict)
    (now : Int) (st : DevState) : DevResult :=
  if secret_key = "" then ⟨false, .noKey, st⟩
  else if ¬ alContains command_data "timestamp" then ⟨false, .missingField, st⟩
  else if ¬ alContains command_data "nonce" then ⟨false, .missingField, st⟩
  else if ¬ alContains command_data "signature" then ⟨false, .missingField, st⟩
  else
    match alGet command_data "signature" with
    | some (.str s) =>
      match compare_digest s
          (create_signature (alRemove command_data "signature") secret_key) with
      | none => ⟨false, .typeErr, st⟩
      | some ok =>
        if ¬ ok then ⟨false, .badSignature, st⟩
        else
          match alGet command_data "timestamp" with
          | some (.int t) =>
            if (300 : Int) < |now - t| then ⟨false, .expired, st⟩
            else
              dev_nonce_phase command_data
                (if (600 : Int) < now - st.nonce_cleanup_time then ⟨[], now⟩
                 else st)
          | some _ => ⟨false, .badTimestamp, st⟩
          | none => ⟨false, .missingField, st⟩
    | some _ => ⟨false, .typeErr, st⟩
    | none => ⟨false, .missingField, st⟩

/-! ## commands.py — parameter validation and sanitization -/

/-- Whitespace stripped by Python's `int(str)` (the ASCII part). -/
def pyWs (c : Char) : Bool :=
  c = ' ' ∨ c.toNat = 9 ∨ c.toNat = 10 ∨ c.toNat = 11 ∨ c.toNat = 12 ∨ c.toNat = 13

/-- ASCII decimal digit. -/
def isDig (c : Char) : Bool := 48 ≤ c.toNat ∧ c.toNat ≤ 57

/-- Digit run with Python's underscore rule (an underscore must sit between
two digits), accumulating the value; the first character must already have
been consumed as a digit. -/
def digitsGo : Nat → List Char → Option Nat
  | acc, [] => some acc
  | acc, c :: rest =>
    if isDig c then digitsGo (acc * 10 + (c.toNat - 48)) rest
    else if c = '_' then
      match rest with
      | d :: rest2 =>
        if isDig d then digitsGo (acc * 10 + (d.toNat - 48)) rest2 else none
      | [] => none
    else none

/-- A nonempty digit string (underscores allowed between digits) to its
value. -/
def digitsVal : List Char → Option Nat
  | [] => none
  | c :: rest => if isDig c then digitsGo (c.toNat - 48) rest else none

/-- Python `int(str)`: strip ASCII whitespace, optional sign, digits.
(Python additionally accepts non-ASCII decimal digits and Unicode spaces;
no value in this development contains any.)  In the unsigned arm the
parsed run is the whole stripped string, written back as `c :: rest`. -/
def pyIntParse (s : List Char) : Option Int :=
  match ((s.dropWhile pyWs).reverse.dropWhile pyWs).reverse with
  | [] => none
  | c :: rest =>
    if c = '+' then (digitsVal rest).map Int.ofNat
    else if c = '-' then (digitsVal rest).map (fun n => -(n : Int))
    else (digitsVal (c :: rest)).map Int.ofNat

/-- `validate_param_value`'s validator spec: the `type` field and the
type-specific constraints the source reads from it. -/
inductive VType : Type where
  | ip
  | hostname
  | integer
  | choice
  | path
  | other
deriving DecidableEq

/-- A `param_validators` entry. `other` covers `'string'` and every
unrecognized type — the source accepts those unconditionally. -/
structure PValidator where
  vtype : VType
  vmin : Option Int := none
  vmax : Option Int := none
  choices : List String := []
deriving DecidableEq

/-- Python `str.split('.')`: maximal runs between dots, keeping empty
pieces (`''.split('.') == ['']`, `'.a.'.split('.') == ['', 'a', '']`). -/
def splitDot : List Char → List (List Char)
  | [] => [[]]
  | c :: rest =>
    if c = '.' then [] :: splitDot rest
    else
      match splitDot rest with
      | g :: gs => (c :: g) :: gs
      | [] => [[c]]

/-- Python `re.match` truthiness for an anchored pattern `^X$`: `$` matches
at the end of the string or just before one final newline, so the pattern
accepts a string exactly when its core accepts the whole string or the
whole string minus a single trailing newline. -/
def pyDollarMatch (core : List Char → Bool) (s : List Char) : Bool :=
  core s || (s.getLast? = some (Char.ofNat 10) && core s.dropLast)

/-- The core of `^(\d{1,3}\.){3}\d{1,3}$`.  Because `\d` cannot match `.`,
the regex (with backtracking) accepts a string exactly when splitting it on
`.` yields four groups of one to three digits; `\d` is modelled as the
ASCII digits (Python's `\d` also covers non-ASCII decimal digits, which no
input here contains). -/
def ipCore (s : List Char) : Bool :=
  decide ((splitDot s).length = 4) && (splitDot s).all fun g =>
    decide (1 ≤ g.length) && decide (g.length ≤ 3) && g.all isDig

/-- ASCII letter or digit, the `[a-zA-Z0-9]` class. -/
def isAlnum (c : Char) : Bool :=
  (48 ≤ c.toNat ∧ c.toNat ≤ 57) ∨ (65 ≤ c.toNat ∧ c.toNat ≤ 90) ∨
    (97 ≤ c.toNat ∧ c.toNat ≤ 122)

/-- The core of `^[a-zA-Z0-9]([a-zA-Z0-9\-\.]*[a-zA-Z0-9])?$`: one
alphanumeric character, or alphanumerics at both ends with alphanumerics,
hyphens and dots in between. -/
def hostnameCore (s : List Char) : Bool :=
  match s with
  | [] => false
  | [c] => isAlnum c
  | c :: rest =>
    isAlnum c && (match rest.getLast? with
      | some last => isAlnum last
      | none => false)
      && rest.dropLast.all (fun m => isAlnum m || m = '-' || m = '.')

/-- The `[a-zA-Z0-9_\-\.\/]` class of the `path` validator. -/
def isPathChar (c : Char) : Bool :=
  isAlnum c || c = '_' || c = '-' || c = '.' || c = '/'

/-- Whether `..` occurs in the value (Python `'..' in value`). -/
def hasDotDot : List Char → Bool
  | c1 :: c2 :: rest => (c1 = '.' && c2 = '.') || hasDotDot (c2 :: rest)
  | _ => false

/-- The `for octet in value.split('.')` loop of the `ip` branch:
`int(octet)` runs outside any `try`, so an unparseable octet would be an
uncaught `ValueError` (`.error ()`) — unreachable after the regex match. -/
def ipOctetsOk : List (List Char) → Except Unit Bool
  | [] => .ok true
  | o :: rest =>
    match pyIntParse o with
    | none => .error ()
    | some n => if 255 < n then .ok false else ipOctetsOk rest

/-- `commands.validate_param_value`.  The result is an `Except`: `.error ()`
marks an uncaught exception escaping the function. -/
def validate_param_value (value : String) (validator : PValidator) :
    Except Unit Bool :=
  match validator.vtype with
  | .ip =>
    if ¬ pyDollarMatch ipCore value.data then .ok false
    else ipOctetsOk (splitDot value.data)
  | .hostname =>
    .ok (pyDollarMatch hostnameCore value.data && decide (value.length ≤ 255))
  | .integer =>
    match pyIntParse value.data with
    | none => .ok false
    | some n =>
      .ok ((match validator.vmin with
            | some lo => decide (lo ≤ n)
            | none => true)
        && (match validator.vmax with
            | some hi => decide (n ≤ hi)
            | none => true))
  | .choice => .ok (validator.choices.contains value)
  | .path =>
    if hasDotDot value.data || value.data.take 1 = ['/'] then .ok false
    else .ok (pyDollarMatch (fun s => s ≠ [] && s.all isPathChar) value.data)
  | .other => .ok true

/-- The shell metacharacters `sanitize_param_value` rejects:
backtick, `$`, `|`, `;`, `&`, `>`, `<`, newline, carriage return,
backslash. -/
def dangerousChars : List Char :=
  [Char.ofNat 96, '$', '|', ';', '&', '>', '<', Char.ofNat 10, Char.ofNat 13,
   Char.ofNat 92]

/-- `commands.sanitize_param_value`: reject any dangerous character, then
cap the length at 256; otherwise the value passes through unchanged. -/
def sanitize_param_value (value : String) : Option String :=
  if value.data.any (fun c => dangerousChars.contains c) then none
  else if 256 < value.length then none
  else some value

/-- A whitelisted command spec: the fields of a `command_whitelist.json`
entry that `commands.py` reads. -/
structure CmdSpec where
  params : List String
  param_validators : List (String × PValidator)
  cmd : List Char
  timeout : Int := 60
deriving DecidableEq

/-- The whitelist, keyed by command id. -/
abbrev Whitelist := List (String × CmdSpec)

/-- The `params` argument dicts: string keys to string values. -/
abbrev StrDict := List (String × String)

/-- Why `validate_command_params` said no. -/
inductive CmdErr : Type where
  | noErr
  | notWhitelisted
  | missingParam
  | invalidParam
  | unsafeParam
deriving DecidableEq

/-- The `(is_valid, error, sanitized_params)` triple. -/
structure VCPResult where
  ok : Bool
  err : CmdErr
  sanitized : StrDict
deriving DecidableEq

/-- The per-parameter loop of `validate_command_params`: for each required
parameter in order, require presence, apply its declared validator if any
(no declared validator behaves as an unconditional accept), then sanitize
unconditionally. -/
def vcpLoop (validators : List (String × PValidator)) (params : StrDict) :
    List String → StrDict → Except Unit VCPResult
  | [], sanitized => .ok ⟨true, .noErr, sanitized⟩
  | p :: rest, sanitized =>
    match alGet params p with
    | none => .ok ⟨false, .missingParam, []⟩
    | some value =>
      match (match alGet validators p with
             | some validator => validate_param_value value validator
             | none => .ok true) with
      | .error e => .error e
      | .ok false => .ok ⟨false, .invalidParam, []⟩
      | .ok true =>
        match sanitize_param_value value with
        | none => .ok ⟨false, .unsafeParam, []⟩
        | some sv => vcpLoop validators params rest (sanitized ++ [(p, sv)])

/-- `commands.validate_command_params`. -/
def validate_command_params (wl : Whitelist) (command_id : String)
    (params : StrDict) : Except Unit VCPResult :=
  match alGet wl command_id with
  | none => .ok ⟨false, .notWhitelisted, []⟩
  | some spec => vcpLoop spec.param_validators params spec.params []

/-! ## commands.py — template substitution -/

/-- Failures of `str.format`: an unbound field name (`KeyError`, which
`build_command_string` catches) or a malformed template (`ValueError`,
which nothing catches). -/
inductive FmtErr : Type where
  | keyError
  | valueError
deriving DecidableEq

/-- `template.format(**params)` for the plain `{name}` fields the whitelist
templates use: `\x7b\x7b` and `\x7d\x7d` are literal braces, `\x7b name
\x7d` substitutes, a stray brace is a `ValueError`.  The `Option` argument
is `some acc` while scanning a field name (accumulated reversed), `none`
outside.  Each step consumes one template character and one unit of fuel,
so `pyFormat`'s fuel of one more than the template length never runs
out (the fuel-exhaustion arm is unreachable). -/
def fmtGo (params : StrDict) : Nat → Option (List Char) → List Char →
    Except FmtErr (List Char)
  | 0, _, _ => .error .valueError
  | _ + 1, none, [] => .ok []
  | _ + 1, some _, [] => .error .valueError
  | fuel + 1, none, c :: rest =>
    if c = lbr then
      match rest with
      | [] => .error .valueError
      | c2 :: rest2 =>
        if c2 = lbr then (fun t => lbr :: t) <$> fmtGo params fuel none rest2
        else fmtGo params fuel (some []) (c2 :: rest2)
    else if c = rbr then
      match rest with
      | [] => .error .valueError
      | c2 :: rest2 =>
        if c2 = rbr then (fun t => rbr :: t) <$> fmtGo params fuel none rest2
        else .error .valueError
    else (fun t => c :: t) <$> fmtGo params fuel none rest
  | fuel + 1, some acc, c :: rest =>
    if c = rbr then
      match alGet params (String.mk acc.reverse) with
      | none => .error .keyError
      | some v => (fun t => v.data ++ t) <$> fmtGo params fuel none rest
    else fmtGo params fuel (some (c :: acc)) rest

/-- `str.format` on a whole template. -/
def pyFormat (template : List Char) (params : StrDict) :
    Except FmtErr (List Char) :=
  fmtGo params (template.length + 1) none template

/-- `commands.build_command_string`: `None` when the command is unknown or a
placeholder is unbound (`KeyError`); a `ValueError` from a malformed
template propagates (`.error`). -/
def build_command_string (wl : Whitelist) (command_id : String)
    (params : StrDict) : Except Unit (Option (List Char)) :=
  match alGet wl command_id with
  | none => .ok none
  | some spec =>
    match pyFormat spec.cmd params with
    | .error .keyError => .ok none
    | .error .valueError => .error ()
    | .ok s => .ok (some s)

/-! ## commands.py — queue, audit, results -/

/-- One line of `command_audit.jsonl`, as `log_command_event` writes it. -/
structure AuditEntry where
  timestamp : Int
  event_type : String
  user : String
  command_uuid : Option PyVal
  command_id : Option PyVal
  client_id : Option PyVal
  status : Option PyVal
  exit_code : Option PyVal

/-- `commands.log_command_event`: append one derived entry. -/
def log_command_event (now : Int) (event_type : String) (command_data : PyDict)
    (user : String) (log : List AuditEntry) : List AuditEntry :=
  log ++ [⟨now, event_type, user,
    alGet command_data "command_uuid", alGet command_data "command_id",
    alGet command_data "client_id", alGet command_data "status",
    alGet command_data "exit_code"⟩]

/-- The durable server state `queue_command` can touch: the pending-command
queue, the result log, the audit log. -/
structure ServerState where
  pending : List (String × List PyDict)
  results : List PyDict
  audit : List AuditEntry

/-- How `queue_command` failed: `notWhitelisted` is its `return None`, the
others are its `raise ValueError(...)` paths, and `pyError` marks an
exception escaping from a callee (unreachable for well-formed whitelists). -/
inductive QueueErr : Type where
  | notWhitelisted
  | validationFailed
  | buildFailed
  | signFailed
  | pyError
deriving DecidableEq

/-- Outcome of `queue_command`. -/
inductive QueueRes : Type where
  | ok (signed : PyDict)
  | err (e : QueueErr)

/-- The signed command of a success. -/
def QueueRes.toOption : QueueRes → Option PyDict
  | .ok signed => some signed
  | .err _ => none

/-- Whether a `queue_command` outcome is a success. -/
def QueueRes.isOk : QueueRes → Bool
  | .ok _ => true
  | .err _ => false

/-- `commands.queue_command`: whitelist lookup, parameter
validation/sanitization, template substitution (with Python's falsy test on
the result — an empty command string also fails), signing for the client,
and only then the two mutations: append to the client's pending list and
append an audit entry.  `uuid`, `nonce` and `now` stand for `uuid4()`,
`generate_nonce()` and `datetime.now()`. -/
def queue_command (wl : Whitelist) (clients : ClientStore)
    (client_id command_id : String) (params : StrDict) (admin_user : String)
    (uuid nonce : String) (now : Int) (st : ServerState) :
    QueueRes × ServerState :=
  match alGet wl command_id with
  | none => (.err .notWhitelisted, st)
  | some spec =>
    match validate_command_params wl command_id params with
    | .error _ => (.err .pyError, st)
    | .ok vr =>
      if vr.ok = false then (.err .validationFailed, st)
      else
        match build_command_string wl command_id vr.sanitized with
        | .error _ => (.err .pyError, st)
        | .ok none => (.err .buildFailed, st)
        | .ok (some cs) =>
          if cs = [] then (.err .buildFailed, st)
          else
            match sign_command clients
              [("command_uuid", .str uuid),
               ("command_id", .str command_id),
               ("command_string", .str (String.mk cs)),
               ("params", .dict (vr.sanitized.map fun e => (e.1, PyVal.str e.2))),
               ("timeout", .int spec.timeout),
               ("queued_at", .int now),
               ("queued_by", .str admin_user),
               ("status", .str "pending")] client_id now nonce with
            | none => (.err .signFailed, st)
            | some signed =>
              (.ok signed,
               { st with
                 pending := alSet st.pending client_id
                   ((alGet st.pending client_id).getD [] ++ [signed]),
                 audit := log_command_event now "queued" signed admin_user st.audit })

/-- `commands.pop_pending_command`: remove and return the head of the
client's list; `None` (and no state change) when the client is unknown or
its list is empty. -/
def pop_pending_command (client_id : String)
    (pending : List (String × List PyDict)) :
    Option PyDict × List (String × List PyDict) :=
  match alGet pending client_id with
  | none => (none, pending)
  | some [] => (none, pending)
  | some (c :: rest) => (some c, alSet pending client_id rest)

/-! ## shell_manager.py -/

/-- `shell_manager.SESSION_TIMEOUT` (seconds of inactivity). -/
def SESSION_TIMEOUT : Int := 1800

/-- `shell_manager.MAX_SESSIONS_PER_CLIENT`. -/
def MAX_SESSIONS_PER_CLIENT : Nat := 3

/-- `ShellSession.status`. -/
inductive SessStatus : Type where
  | pending
  | connected
  | closed
deriving DecidableEq

/-- `shell_manager.ShellSession`. -/
structure Sess where
  session_id : String
  client_id : String
  admin_sid : String
  client_sid : Option String := none
  created_at : Int
  last_activity : Int
  status : SessStatus := .pending
  rows : Int := 24
  cols : Int := 80
deriving DecidableEq

/-- `ShellSession.is_expired`: strictly more than `SESSION_TIMEOUT` seconds
since the last activity. -/
def Sess.is_expired (now : Int) (s : Sess) : Bool :=
  SESSION_TIMEOUT < now - s.last_activity

/-- The four indexes of `ShellSessionManager`. -/
structure ShellState where
  sessions : List (String × Sess) := []
  admin_sessions : List (String × String) := []
  client_sessions : List (String × List String) := []
  client_sids : List (String × String) := []

/-- `ShellSessionManager.create_session`: refuse when the client already has
`MAX_SESSIONS_PER_CLIENT` sessions or is not registered for shell;
otherwise index the fresh session everywhere.  `sid` and `now` stand for
`uuid4()` and `datetime.now()`. -/
def create_session (st : ShellState) (client_id admin_sid : String)
    (sid : String) (now : Int) (rows : Int := 24) (cols : Int := 80) :
    Option Sess × ShellState :=
  let cnt := ((alGet st.client_sessions client_id).getD []).length
  if MAX_SESSIONS_PER_CLIENT ≤ cnt then (none, st)
  else if ¬ alContains st.client_sids client_id then (none, st)
  else
    let s : Sess := { session_id := sid, client_id := client_id,
                      admin_sid := admin_sid, created_at := now,
                      last_activity := now, rows := rows, cols := cols }
    (some s,
     { st with
       sessions := alSet st.sessions sid s,
       admin_sessions := alSet st.admin_sessions admin_sid sid,
       client_sessions := alSet st.client_sessions client_id
         (((alGet st.client_sessions client_id).getD []) ++ [sid]) })

/-- `ShellSessionManager.close_session` (and `_close_session_internal`,
which is the same code without the return value): drop the session from
every index; `False`/no-op when the session id is unknown. -/
def close_session (st : ShellState) (session_id : String) :
    Bool × ShellState :=
  match alGet st.sessions session_id with
  | none => (false, st)
  | some s =>
    (true,
     { st with
       sessions := alRemove st.sessions session_id,
       admin_sessions := alRemove st.admin_sessions s.admin_sid,
       client_sessions :=
         match alGet st.client_sessions s.client_id with
         | some l => alSet st.client_sessions s.client_id (l.erase session_id)
         | none => st.client_sessions })

/-- `ShellSessionManager.register_client`. -/
def shell_register_client (st : ShellState) (client_id client_sid : String) :
    ShellState :=
  { st with client_sids := alSet st.client_sids client_id client_sid }

/-- A notification the relay could send over the event channel.  The close
paths of `app.py` emit `shell_close` (to the device) and `shell_closed`
(to the controller); an `expired`-reason variant exists in this vocabulary
so that the reaper claim can be stated, but no source path constructs
one. -/
inductive ShellEvent : Type where
  | shellClose (session_id : String)
  | shellClosed (session_id : String) (reason : String)
  | expiredClose (session_id : String)
deriving DecidableEq

/-- One sweep of the `_cleanup_expired_sessions` background thread (the body
of its 60-second loop): collect the expired session ids, then close each
internally.  The thread body only prints to the server console — it emits
no event to either side, so the event list of a sweep is empty. -/
def cleanup_sweep (st : ShellState) (now : Int) :
    ShellState × List ShellEvent :=
  let expired := (st.sessions.filter fun e => e.2.is_expired now).map (·.1)
  (expired.foldl (fun acc sid => (close_session acc sid).2) st, [])

/-! ## Specification-side predicates

These transcribe the spec's wording (not the source); they exist to be
compared with the embedded source functions. -/

/-- The numeric value of an all-digit group. -/
def digitsValue (g : List Char) : Nat :=
  g.foldl (fun a c => a * 10 + (c.toNat - 48)) 0

/-- The spec's ip language, as the claim words it: four dot-separated
groups, each a (nonempty, all-digit) integer between 0 and 255. -/
def claimIpLang (s : List Char) : Bool :=
  (splitDot s).length = 4 && (splitDot s).all fun g =>
    !g.isEmpty && g.all isDig && decide (digitsValue g ≤ 255)

/-- What the source's ip validator accepts on a string with no trailing
newline: four dot-separated groups of one to three digits, each of value
at most 255. -/
def ipGroupsOk (s : List Char) : Bool :=
  (splitDot s).length = 4 && (splitDot s).all fun g =>
    decide (1 ≤ g.length) && decide (g.length ≤ 3) && g.all isDig &&
      decide (digitsValue g ≤ 255)

/-- The exact language of the source's ip validator: `ipGroupsOk`, allowing
one trailing newline (the Python `$` anchor artifact). -/
def amendedIpLang (s : List Char) : Bool :=
  ipGroupsOk s || (s.getLast? = some (Char.ofNat 10) && ipGroupsOk s.dropLast)

/-- A bare `{'type': 'ip'}` validator spec. -/
def ipValidatorEx : PValidator := ⟨.ip, none, none, []⟩

/-- A `{'type': 'integer', 'min': lo, 'max': hi}` validator spec. -/
def intValidatorRange (lo hi : Int) : PValidator := ⟨.integer, some lo, some hi, []⟩

/-- Rewrite the last group of a split (proof helper for the trailing
newline case). -/
def modifyLast (f : List Char → List Char) : List (List Char) → List (List Char)
  | [] => []
  | [g] => [f g]
  | g :: gs => g :: modifyLast f gs

/-! ## Concrete instances used by the witnesses and counterexamples -/

/-- The single-field payload with an `n`-character string value. -/
def payloadOfLen (n : Nat) : PyDict :=
  [("a", PyVal.str (String.mk (List.replicate n 'x')))]

/-- Its signature bytes under a fixed secret, read as a function into a
finite codomain; the pigeonhole argument for C1 runs through this map. -/
def sigFn (S : String) (n : Nat) : Fin 32 → Fin 256 := fun i =>
  ⟨(signatureBytes (payloadOfLen n) S).getD i.val 0 % 256,
   Nat.mod_lt _ (by norm_num)⟩

/-- A command payload before signing (replay-protection fields present). -/
def c2base : PyDict :=
  [("timestamp", .int 1000), ("nonce", .str "n-abc"), ("client_id", .str "edge-01")]

/-- The same payload carrying its own valid signature under secret
`"sek"`. -/
def c2cmd : PyDict :=
  c2base ++ [("signature", .str (create_signature c2base "sek"))]

/-- A minimal signed payload for the device-side replay scenario. -/
def c2cexBase : PyDict := [("timestamp", .int 400), ("nonce", .str "n")]

/-- Its signed form under secret `"k"`. -/
def c2cexCmd : PyDict :=
  c2cexBase ++ [("signature", .str (create_signature c2cexBase "k"))]

/-- A signature string with a non-ASCII character: `hmac.compare_digest`
raises `TypeError` on it. -/
def c10sig : String := String.mk ['s', Char.ofNat 233]

/-- A command whose `signature` value makes `verify_command_signature`
raise mid-mutation: all required fields present, but the signature string
is non-ASCII. -/
def c10cex : PyDict :=
  [("timestamp", .int 0), ("nonce", .str "n"), ("signature", .str c10sig)]

/-- An already-revoked client record. -/
def c6revoked : ClientInfo :=
  { secret_key := "sek", created_at := 0, enabled := false, revoked_at := some 5 }

/-- An enabled client record. -/
def c6live : ClientInfo :=
  { secret_key := "sek", created_at := 0, enabled := true }

/-- An enabled admin record. -/
def c6admin : AdminInfo := { name := "root", created_at := 0, enabled := true }

/-- A shell session with a chosen id/owner and last activity time. -/
def mkSess (sid cid asid : String) (act : Int) : Sess :=
  { session_id := sid, client_id := cid, admin_sid := asid,
    created_at := 0, last_activity := act }

/-- A relay state in which device `dev` is connected and already holds
three active sessions. -/
def c7st : ShellState :=
  { sessions := [("s1", mkSess "s1" "dev" "a1" 0), ("s2", mkSess "s2" "dev" "a2" 0),
                 ("s3", mkSess "s3" "dev" "a3" 0)],
    admin_sessions := [("a1", "s1"), ("a2", "s2"), ("a3", "s3")],
    client_sessions := [("dev", ["s1", "s2", "s3"])],
    client_sids := [("dev", "csid")] }

/-- A relay state with a single session, last active at time 0. -/
def c8st : ShellState :=
  { sessions := [("s1", mkSess "s1" "dev" "a1" 0)],
    admin_sessions := [("a1", "s1")],
    client_sessions := [("dev", ["s1"])],
    client_sids := [("dev", "csid")] }

/-- The template `ping \x7btarget\x7d`. -/
def c4template : List Char := "ping ".data ++ lbr :: "target".data ++ [rbr]

/-- A whitelist with one command whose parameter is ip-validated. -/
def c4wl : Whitelist :=
  [("ping_cmd", { params := ["target"],
                  param_validators := [("target", ipValidatorEx)],
                  cmd := c4template, timeout := 60 })]

/-- A whitelist whose parameter has a `choice` validator that itself lists
a value with a shell metacharacter — the validator accepts it, the
sanitizer must still reject it. -/
def c4wlChoice : Whitelist :=
  [("opt_cmd", { params := ["mode"],
                 param_validators := [("mode", ⟨.choice, none, none, ["a;b"]⟩)],
                 cmd := "x".data, timeout := 60 })]

/-- The template `run \x7bmsg\x7d`. -/
def c5template : List Char := "run ".data ++ lbr :: "msg".data ++ [rbr]

/-- A whitelist with one unvalidated string parameter. -/
def c5wl : Whitelist :=
  [("echo_hello", { params := ["msg"], param_validators := [],
                    cmd := c5template, timeout := 60 })]

/-- A client store with one enabled client. -/
def c5clients : ClientStore :=
  [("edge-01", { secret_key := "s3cret", created_at := 0, enabled := true })]

/-- Parameters for `echo_hello`. -/
def c5params : StrDict := [("msg", "hello")]

/-- The empty server state. -/
def emptyServerState : ServerState := { pending := [], results := [], audit := [] }

/-- Three consecutive queueing calls for the same client (fresh uuids,
nonces and times supplied explicitly). -/
def c5q1 : QueueRes × ServerState :=
  queue_command c5wl c5clients "edge-01" "echo_hello" c5params "adm" "u1" "no1"
    5 emptyServerState

def c5q2 : QueueRes × ServerState :=
  queue_command c5wl c5clients "edge-01" "echo_hello" c5params "adm" "u2" "no2"
    6 c5q1.2

def c5q3 : QueueRes × ServerState :=
  queue_command c5wl c5clients "edge-01" "echo_hello" c5params "adm" "u3" "no3"
    7 c5q2.2

/-- The three signed commands those calls produced. -/
def c5s1 : PyDict := c5q1.1.toOption.getD []

def c5s2 : PyDict := c5q2.1.toOption.getD []

def c5s3 : PyDict := c5q3.1.toOption.getD []

/-! ## Association-list lemmas -/

theorem alGet_alSet_self {α : Type} (l : List (String × α)) (k : String) (v : α) :
    alGet (alSet l k v) k = some v := by
  induction l with
  | nil => simp [alSet, alGet]
  | cons e rest ih =>
    obtain ⟨k1, v1⟩ := e
    by_cases h : k1 = k
    · simp [alSet, alGet, h]
    · simp [alSet, alGet, h, ih]

theorem alGet_alSet_ne {α : Type} (l : List (String × α)) (k k2 : String) (v : α)
    (h : k2 ≠ k) : alGet (alSet l k v) k2 = alGet l k2 := by
  have hk : ¬ (k = k2) := fun hh => h hh.symm
  induction l with
  | nil => simp [alSet, alGet, hk]
  | cons e rest ih =>
    obtain ⟨k1, v1⟩ := e
    by_cases h1 : k1 = k
    · subst h1
      simp [alSet, alGet, hk]
    · simp [alSet, alGet, h1, ih]

theorem alGet_alRemove_self {α : Type} (l : List (String × α)) (k : String) :
    alGet (alRemove l k) k = none := by
  induction l with
  | nil => simp [alRemove, alGet]
  | cons e rest ih =>
    obtain ⟨k1, v1⟩ := e
    by_cases h1 : k1 = k
    · simp [alRemove, h1, ih]
    · simp [alRemove, alGet, h1, ih]

theorem alGet_alRemove_ne {α : Type} (l : List (String × α)) (k k2 : String)
    (h : k2 ≠ k) : alGet (alRemove l k) k2 = alGet l k2 := by
  have hk : ¬ (k = k2) := fun hh => h hh.symm
  induction l with
  | nil => simp [alRemove]
  | cons e rest ih =>
    obtain ⟨k1, v1⟩ := e
    by_cases h1 : k1 = k
    · subst h1
      simp [alRemove, alGet, hk, ih]
    · simp [alRemove, alGet, h1, ih]

theorem alGet_alRemove_none {α : Type} (l : List (String × α)) (k k2 : String)
    (h : alGet l k2 = none) : alGet (alRemove l k) k2 = none := by
  by_cases hk : k2 = k
  · subst hk; exact alGet_alRemove_self l k2
  · rw [alGet_alRemove_ne l k k2 hk]; exact h

theorem alGet_mem {α : Type} (l : List (String × α)) (k : String) (v : α)
    (h : alGet l k = some v) : (k, v) ∈ l := by
  induction l with
  | nil => simp [alGet] at h
  | cons e rest ih =>
    obtain ⟨k1, v1⟩ := e
    by_cases h1 : k1 = k
    · subst h1
      simp [alGet] at h
      subst h
      exact List.mem_cons_self _ _
    · simp [alGet, h1] at h
      exact List.mem_cons_of_mem _ (ih h)

/-- Restoring a popped `signature` entry leaves every lookup as it was. -/
theorem alGet_restore (d : PyDict) (v : PyVal) (k : String)
    (h : alGet d "signature" = some v) :
    alGet (alSet (alRemove d "signature") "signature" v) k = alGet d k := by
  by_cases hk : k = "signature"
  · subst hk
    rw [alGet_alSet_self, h]
  · rw [alGet_alSet_ne _ _ _ _ hk, alGet_alRemove_ne _ _ _ hk]

mutual
theorem pyValBeq_refl : (v : PyVal) → pyValBeq v v = true
  | .str s => by simp [pyValBeq]
  | .int n => by simp [pyValBeq]
  | .dict d => by simp [pyValBeq, pyEntsBeq_refl d]

theorem pyEntsBeq_refl : (l : List (String × PyVal)) → pyEntsBeq l l = true
  | [] => by simp [pyEntsBeq]
  | (k, v) :: rest => by
    simp [pyEntsBeq, pyValBeq_refl v, pyEntsBeq_refl rest]
end

/-! ## Hex digests are ASCII, so `compare_digest` never raises on them -/

theorem hexDigit_lt (k : Nat) (h : k < 16) : (hexDigit k).toNat < 128 := by
  interval_cases k <;> decide

theorem strAscii_hexOfBytes (bs : List Nat) :
    strAscii (hexOfBytes bs) = true := by
  have h : ∀ c ∈ (bs.map hexByte).flatten, c.toNat < 128 := by
    intro c hc
    simp only [List.mem_flatten, List.mem_map] at hc
    obtain ⟨l, ⟨b, hb, rfl⟩, hcl⟩ := hc
    simp only [hexByte, List.mem_cons, List.not_mem_nil, or_false] at hcl
    rcases hcl with rfl | rfl <;>
      exact hexDigit_lt _ (Nat.mod_lt _ (by norm_num))
  show ((bs.map hexByte).flatten).all (fun c => decide (c.toNat < 128)) = true
  rw [List.all_eq_true]
  intro c hc
  exact decide_eq_true (h c hc)

theorem strAscii_create_signature (p : PyDict) (s : String) :
    strAscii (create_signature p s) = true :=
  strAscii_hexOfBytes (signatureBytes p s)

theorem compare_digest_sig (a : String) (q : PyDict) (t : String)
    (ha : strAscii a = true) :
    compare_digest a (create_signature q t) =
      some (decide (a = create_signature q t)) := by
  unfold compare_digest
  rw [ha, strAscii_create_signature q t]
  rfl

/-! ## C6 — revocation -/

/-- C6: the claim that revoking an already-revoked credential returns
false is wrong: `revoke_client` answers `True` for any *present* record,
enabled or not (`if client_id in secrets_dict`), re-stamping its
`revoked_at`. -/
theorem C6_counterexample :
    ¬ (∀ (store : ClientStore) (cid : String) (now : Int) (info : ClientInfo),
        alGet store cid = some info → info.enabled = false →
        (revoke_client store cid now).1 = false) := by
  intro h
  have h2 := h [("c1", c6revoked)] "c1" 10 c6revoked rfl rfl
  exact absurd h2 (by decide)

/-- C6 (amended): revoking an unknown client or admin key returns false
and changes nothing; revoking any present record — enabled **or already
revoked** — returns true, sets `enabled := false` and `revoked_at := now`,
and retains the record (a tombstone, never deleted).  The embedded
functions are total, so no exception is raised. -/
theorem C6_revoke_tombstone (cst : ClientStore) (ast : AdminStore)
    (cid akey : String) (now : Int) :
    (alGet cst cid = none → revoke_client cst cid now = (false, cst)) ∧
    (∀ info, alGet cst cid = some info →
      (revoke_client cst cid now).1 = true ∧
      alGet (revoke_client cst cid now).2 cid =
        some { info with enabled := false, revoked_at := some now }) ∧
    (alGet ast akey = none → revoke_admin_key ast akey now = (false, ast)) ∧
    (∀ info, alGet ast akey = some info →
      (revoke_admin_key ast akey now).1 = true ∧
      alGet (revoke_admin_key ast akey now).2 akey =
        some { info with enabled := false, revoked_at := some now }) := by
  refine ⟨fun h => ?_, fun info h => ?_, fun h => ?_, fun info h => ?_⟩
  · simp [revoke_client, h]
  · simp [revoke_client, h, alGet_alSet_self]
  · simp [revoke_admin_key, h]
  · simp [revoke_admin_key, h, alGet_alSet_self]

/-- C6 witness: the amended statement evaluated on one-record stores and on
empty stores. -/
theorem C6_witness :
    revoke_client [] "c" 3 = (false, []) ∧
    (revoke_client [("c", c6live)] "c" 3).1 = true ∧
    alGet (revoke_client [("c", c6live)] "c" 3).2 "c" =
      some { c6live with enabled := false, revoked_at := some 3 } ∧
    revoke_admin_key [] "k" 3 = (false, []) ∧
    (revoke_admin_key [("k", c6admin)] "k" 3).1 = true ∧
    alGet (revoke_admin_key [("k", c6admin)] "k" 3).2 "k" =
      some { c6admin with enabled := false, revoked_at := some 3 } := by
  refine ⟨(C6_revoke_tombstone [] [] "c" "k" 3).1 rfl,
    ((C6_revoke_tombstone [("c", c6live)] [] "c" "k" 3).2.1 c6live rfl).1,
    ((C6_revoke_tombstone [("c", c6live)] [] "c" "k" 3).2.1 c6live rfl).2,
    (C6_revoke_tombstone [] [] "c" "k" 3).2.2.1 rfl,
    ((C6_revoke_tombstone [] [("k", c6admin)] "c" "k" 3).2.2.2 c6admin rfl).1,
    ((C6_revoke_tombstone [] [("k", c6admin)] "c" "k" 3).2.2.2 c6admin rfl).2⟩

/-! ## C10 — verify_command_signature restores its argument -/

/-- C10 counterexample: the claim that the command dict is unchanged after
the call *whatever happens* is wrong.  With all three required fields
present but a non-ASCII `signature` string, `hmac.compare_digest` raises
`TypeError` after the `pop` and before the restore, so the caller is left
with the dict stripped of its `signature` entry. -/
theorem C10_counterexample :
    ¬ (∀ (cmd : PyDict) (secret : String) (now : Int) (ns : NonceStore)
        (k : String),
        alGet (verify_command_signature cmd secret now ns).cmd k =
          alGet cmd k) := by
  intro h
  have h2 := h c10cex "k" 0 [] "signature"
  rw [show alGet c10cex "signature" = some (.str c10sig) from rfl] at h2
  rw [show alGet (verify_command_signature c10cex "k" 0 []).cmd "signature"
      = none from rfl] at h2
  exact Option.noConfusion h2

/-- C10 (amended): on every *return* path of the server-side
`verify_command_signature`, the command dict compares equal (as a Python
dict, i.e. by lookup) to the one passed in: the popped `signature` entry is
restored before each `return`.  The excluded `typeErr` outcomes are the
non-return paths — an uncaught `TypeError` inside `compare_digest` (non-
string or non-ASCII signature value) aborts the call with the dict still
stripped, which is what the counterexample exhibits. -/
theorem C10_verify_restores_command (cmd : PyDict) (secret : String)
    (now : Int) (ns : NonceStore) (k : String)
    (h : (verify_command_signature cmd secret now ns).err ≠ .typeErr) :
    alGet (verify_command_signature cmd secret now ns).cmd k = alGet cmd k := by
  generalize hE : verify_command_signature cmd secret now ns = r at h ⊢
  unfold verify_command_signature at hE
  repeat' split at hE
  all_goals subst hE
  all_goals first
    | rfl
    | (exact absurd rfl h)
    | (exact alGet_restore cmd _ k (by assumption))

/-- C10 witness: a command with a missing field returns (no exception) with
the dict untouched. -/
theorem C10_witness :
    (verify_command_signature [] "k" 0 []).err ≠ .typeErr ∧
    alGet (verify_command_signature [] "k" 0 []).cmd "nonce" =
      alGet ([] : PyDict) "nonce" :=
  ⟨by decide, C10_verify_restores_command [] "k" 0 [] "nonce" (by decide)⟩

/-! ## C3 — queue_command is fail-fast -/

/-- Every run of `queue_command` either succeeds or leaves the state
untouched: all mutations happen after the last failure point. -/
theorem queue_command_state (wl : Whitelist) (clients : ClientStore)
    (cid cmdId : String) (params : StrDict) (admin uuid nonce : String)
    (now : Int) (st : ServerState) :
    (queue_command wl clients cid cmdId params admin uuid nonce now st).2 = st ∨
    (queue_command wl clients cid cmdId params admin uuid nonce now st).1.isOk
      = true := by
  unfold queue_command
  repeat' split
  all_goals simp [QueueRes.isOk]

/-- C3: whenever `queue_command` fails — unknown command id, parameter
validation failure, template substitution failure, empty command string,
or signing refusal for an unregistered/disabled client — the pending
queue, the result store and the audit log are exactly as before the
call. -/
theorem C3_queue_failfast (wl : Whitelist) (clients : ClientStore)
    (cid cmdId : String) (params : StrDict) (admin uuid nonce : String)
    (now : Int) (st : ServerState) (e : QueueErr)
    (h : (queue_command wl clients cid cmdId params admin uuid nonce now st).1
      = .err e) :
    (queue_command wl clients cid cmdId params admin uuid nonce now st).2 = st := by
  rcases queue_command_state wl clients cid cmdId params admin uuid nonce now st
    with h2 | h2
  · exact h2
  · rw [h] at h2
    simp [QueueRes.isOk] at h2

/-- C3 witness: queueing an un-whitelisted command fails and the state is
returned unchanged. -/
theorem C3_witness :
    (queue_command [] [] "dev" "nope" [] "adm" "u" "n" 0 emptyServerState).1 =
      .err .notWhitelisted ∧
    (queue_command [] [] "dev" "nope" [] "adm" "u" "n" 0 emptyServerState).2 =
      emptyServerState :=
  ⟨rfl, C3_queue_failfast [] [] "dev" "nope" [] "adm" "u" "n" 0 emptyServerState
    .notWhitelisted rfl⟩

/-! ## C7 — session cap -/

/-- C7: `create_session` refuses exactly when the device already has
`MAX_SESSIONS_PER_CLIENT` (3) active sessions or is not registered for
shell; in particular a 4th create on a device with 3 sessions is refused,
and closing one of them lets a subsequent create succeed. -/
theorem C7_session_cap (st : ShellState) (cid asid sid sid2 : String)
    (now now2 rows cols rows2 cols2 : Int) :
    ((create_session st cid asid sid now rows cols).1 = none ↔
      (MAX_SESSIONS_PER_CLIENT ≤ ((alGet st.client_sessions cid).getD []).length ∨
        alGet st.client_sids cid = none)) ∧
    (∀ s old, alGet st.sessions sid2 = some s → s.client_id = cid →
      alGet st.client_sessions cid = some old → sid2 ∈ old →
      old.length = 3 → alGet st.client_sids cid ≠ none →
      (create_session st cid asid sid now rows cols).1 = none ∧
      ((create_session (close_session st sid2).2 cid asid sid now2 rows2
        cols2).1).isSome = true) := by
  constructor
  · by_cases h1 :
      MAX_SESSIONS_PER_CLIENT ≤ ((alGet st.client_sessions cid).getD []).length
    · simp [create_session, h1]
    · by_cases h2 : alGet st.client_sids cid = none
      · simp [create_session, h1, h2, alContains]
      · simp [create_session, h1, h2, alContains, Option.isSome_iff_ne_none]
  · intro s old hs hcid hold hmem hlen hconn
    have h4 :
        MAX_SESSIONS_PER_CLIENT ≤ ((alGet st.client_sessions cid).getD []).length := by
      rw [hold]
      simp [hlen, MAX_SESSIONS_PER_CLIENT]
    refine ⟨by simp [create_session, h4], ?_⟩
    have hclose : (close_session st sid2).2.client_sessions =
        alSet st.client_sessions cid (old.erase sid2) := by
      simp [close_session, hs, hcid, hold]
    have hsids : (close_session st sid2).2.client_sids = st.client_sids := by
      simp [close_session, hs]
    have hcnt :
        ((alGet (close_session st sid2).2.client_sessions cid).getD []).length
          = 2 := by
      rw [hclose, alGet_alSet_self]
      simp [List.length_erase_of_mem hmem, hlen]
    simp [create_session, hcnt, hsids, MAX_SESSIONS_PER_CLIENT, alContains,
      Option.isSome_iff_ne_none, hconn]

/-- C7 witness: on a concrete state with three sessions for `dev`, the 4th
create is refused and, after closing `s1`, a create succeeds. -/
theorem C7_witness :
    (create_session c7st "dev" "a4" "s4" 10 24 80).1 = none ∧
    ((create_session (close_session c7st "s1").2 "dev" "a4" "s4" 10 24 80).1).isSome
      = true :=
  (C7_session_cap c7st "dev" "a4" "s4" "s1" 10 10 24 80 24 80).2
    (mkSess "s1" "dev" "a1" 0) ["s1", "s2", "s3"] rfl rfl rfl (by decide) rfl
    (by decide)

/-! ## C8 — the idle reaper -/

/-- Closing any session never resurrects an absent one. -/
theorem close_session_none_mono (st : ShellState) (sid sid2 : String)
    (h : alGet st.sessions sid = none) :
    alGet (close_session st sid2).2.sessions sid = none := by
  rcases hE : alGet st.sessions sid2 with _ | s
  · simp [close_session, hE, h]
  · simp [close_session, hE]
    exact alGet_alRemove_none _ _ _ h

/-- Closing a session removes it from the session table. -/
theorem close_session_closes (st : ShellState) (sid : String) :
    alGet (close_session st sid).2.sessions sid = none := by
  rcases hE : alGet st.sessions sid with _ | s
  · simp [close_session, hE]
  · simp [close_session, hE, alGet_alRemove_self]

/-- A session absent before a batch of closes is absent after it. -/
theorem foldl_close_none (ids : List String) (st : ShellState) (sid : String)
    (h : alGet st.sessions sid = none) :
    alGet (ids.foldl (fun acc i => (close_session acc i).2) st).sessions sid
      = none := by
  induction ids generalizing st with
  | nil => exact h
  | cons i rest ih => exact ih _ (close_session_none_mono _ _ _ h)

/-- Every session in a batch of closes ends up removed. -/
theorem foldl_close_mem (ids : List String) (st : ShellState) (sid : String)
    (h : sid ∈ ids) :
    alGet (ids.foldl (fun acc i => (close_session acc i).2) st).sessions sid
      = none := by
  induction ids generalizing st with
  | nil => cases h
  | cons i rest ih =>
    rcases List.mem_cons.mp h with h1 | h1
    · subst h1
      exact foldl_close_none rest _ sid (close_session_closes st sid)
    · exact ih _ h1

/-- C8: the claim that the reaper notifies the controller with a distinct
"expired" reason is wrong: the cleanup-thread body only closes the session
(and prints to the server console) — it emits no event at all, so no
expired-close notification ever appears in a sweep's output. -/
theorem C8_counterexample :
    ¬ (∀ (st : ShellState) (now : Int) (sid : String) (s : Sess),
        alGet st.sessions sid = some s → s.is_expired now = true →
        alGet (cleanup_sweep st now).1.sessions sid = none ∧
        ShellEvent.expiredClose sid ∈ (cleanup_sweep st now).2) := by
  intro h
  have h2 := (h c8st 2000 "s1" (mkSess "s1" "dev" "a1" 0) rfl (by decide)).2
  simp [cleanup_sweep] at h2

/-- C8 (amended): each sweep of the background reaper force-closes every
session whose `last_activity` is more than the 30-minute idle threshold
old, but sends no close notification to the controller (or anyone): its
event output is always empty. -/
theorem C8_reaper_closes_silently (st : ShellState) (now : Int) :
    (cleanup_sweep st now).2 = [] ∧
    (∀ sid s, alGet st.sessions sid = some s → s.is_expired now = true →
      alGet (cleanup_sweep st now).1.sessions sid = none) := by
  refine ⟨rfl, fun sid s hget hexp => ?_⟩
  have hmem : sid ∈ ((st.sessions.filter fun e => e.2.is_expired now).map (·.1)) := by
    refine List.mem_map.mpr ⟨(sid, s), ?_, rfl⟩
    exact List.mem_filter.mpr ⟨alGet_mem _ _ _ hget, hexp⟩
  exact foldl_close_mem _ _ _ hmem

/-- C8 witness: a concrete sweep over one idle-expired session removes it
and emits nothing. -/
theorem C8_witness :
    (cleanup_sweep c8st 2000).2 = [] ∧
    alGet (cleanup_sweep c8st 2000).1.sessions "s1" = none :=
  ⟨(C8_reaper_closes_silently c8st 2000).1,
   (C8_reaper_closes_silently c8st 2000).2 "s1" (mkSess "s1" "dev" "a1" 0) rfl
     (by decide)⟩

/-! ## C4 — the sanitizer -/

/-- The sanitizer either rejects or passes a value through unchanged. -/
theorem sanitize_id_or_none (v : String) :
    sanitize_param_value v = none ∨ sanitize_param_value v = some v := by
  unfold sanitize_param_value
  repeat' split
  all_goals simp

/-- A validation run that ends ok sanitized every required parameter:
each is present and passes `sanitize_param_value` unchanged. -/
theorem vcpLoop_ok_sanitized (validators : List (String × PValidator))
    (params : StrDict) (plist : List String) (acc : StrDict) (r : VCPResult)
    (h : vcpLoop validators params plist acc = .ok r) (hok : r.ok = true) :
    ∀ p ∈ plist, ∃ v, alGet params p = some v ∧
      sanitize_param_value v = some v := by
  induction plist generalizing acc with
  | nil => intro p hp; cases hp
  | cons p0 rest ih =>
    intro p hp
    unfold vcpLoop at h
    rcases hval0 : alGet params p0 with _ | value
    · simp only [hval0] at h
      injection h with h2
      rw [← h2] at hok
      cases hok
    · simp only [hval0] at h
      rcases hgate : (match alGet validators p0 with
          | some validator => validate_param_value value validator
          | none => Except.ok true) with e | b
      · simp only [hgate] at h
        exact Except.noConfusion h
      · simp only [hgate] at h
        cases b
        · injection h with h2
          rw [← h2] at hok
          cases hok
        · rcases hsan : sanitize_param_value value with _ | sv
          · simp only [hsan] at h
            injection h with h2
            rw [← h2] at hok
            cases hok
          · simp only [hsan] at h
            rcases List.mem_cons.mp hp with h1 | h1
            · subst h1
              refine ⟨value, hval0, ?_⟩
              rcases sanitize_id_or_none value with he | he
              · rw [he] at hsan; cases hsan
              · exact he
            · exact ih _ h p h1

/-- If some required parameter's value fails the sanitizer, the whole
validation fails. -/
theorem vcpLoop_unsafe_rejected (validators : List (String × PValidator))
    (params : StrDict) (plist : List String) (p : String) (v : String)
    (hv : alGet params p = some v) (hbad : sanitize_param_value v = none)
    (acc : StrDict) (r : VCPResult) (hp : p ∈ plist)
    (h : vcpLoop validators params plist acc = .ok r) :
    r.ok = false := by
  induction plist generalizing acc with
  | nil => cases hp
  | cons p0 rest ih =>
    unfold vcpLoop at h
    rcases hval0 : alGet params p0 with _ | value
    · simp only [hval0] at h
      injection h with h2
      rw [← h2]
    · simp only [hval0] at h
      rcases hgate : (match alGet validators p0 with
          | some validator => validate_param_value value validator
          | none => Except.ok true) with e | b
      · simp only [hgate] at h
        exact Except.noConfusion h
      · simp only [hgate] at h
        cases b
        · injection h with h2
          rw [← h2]
        · rcases hsan : sanitize_param_value value with _ | sv
          · simp only [hsan] at h
            injection h with h2
            rw [← h2]
          · simp only [hsan] at h
            rcases List.mem_cons.mp hp with h1 | h1
            · subst h1
              rw [hval0] at hv
              cases hv
              rw [hbad] at hsan
              cases hsan
            · exact ih _ h1 h

/-- C4: any parameter value containing one of the shell metacharacters
(backtick, `$`, `|`, `;`, `&`, `>`, `<`, newline, carriage return,
backslash) is rejected by the sanitizer, as is any value longer than 256;
a required parameter whose value carries a metacharacter makes
`validate_command_params` fail no matter which validator (if any) the
parameter declares; and a validation that succeeds has passed every
required parameter through the sanitizer unchanged. -/
theorem C4_sanitizer (wl : Whitelist) (cmdId : String) (params : StrDict)
    (v : String) :
    ((v.data.any fun c => dangerousChars.contains c) = true ∨ 256 < v.length →
      sanitize_param_value v = none) ∧
    (∀ spec p r, alGet wl cmdId = some spec → p ∈ spec.params →
      alGet params p = some v →
      (v.data.any fun c => dangerousChars.contains c) = true →
      validate_command_params wl cmdId params = .ok r → r.ok = false) ∧
    (∀ spec r, alGet wl cmdId = some spec →
      validate_command_params wl cmdId params = .ok r → r.ok = true →
      ∀ p ∈ spec.params, ∃ v2, alGet params p = some v2 ∧
        sanitize_param_value v2 = some v2) := by
  have hnone : (v.data.any fun c => dangerousChars.contains c) = true →
      sanitize_param_value v = none := by
    intro h
    unfold sanitize_param_value
    rw [if_pos h]
  refine ⟨?_, ?_, ?_⟩
  · rintro (h | h)
    · exact hnone h
    · by_cases h2 : (v.data.any fun c => dangerousChars.contains c) = true
      · exact hnone h2
      · unfold sanitize_param_value
        rw [if_neg h2, if_pos h]
  · intro spec p r hspec hp hv hbad hval
    unfold validate_command_params at hval
    rw [hspec] at hval
    exact vcpLoop_unsafe_rejected spec.param_validators params spec.params p v
      hv (hnone hbad) [] r hp hval
  · intro spec r hspec hval hok p hp
    unfold validate_command_params at hval
    rw [hspec] at hval
    exact vcpLoop_ok_sanitized spec.param_validators params spec.params [] r
      hval hok p hp

/-- C4 witness: a metacharacter value is rejected by the sanitizer and by
whole-command validation even though its `choice` validator accepts it; a
clean ip value validates and passes the sanitizer unchanged. -/
theorem C4_witness :
    sanitize_param_value "a;b" = none ∧
    (VCPResult.mk false CmdErr.unsafeParam []).ok = false ∧
    sanitize_param_value "8.8.8.8" = some "8.8.8.8" := by
  refine ⟨(C4_sanitizer [] "" [] "a;b").1 (Or.inl (by decide)), ?_, ?_⟩
  · exact (C4_sanitizer c4wlChoice "opt_cmd" [("mode", "a;b")] "a;b").2.1
      { params := ["mode"],
        param_validators := [("mode", ⟨.choice, none, none, ["a;b"]⟩)],
        cmd := "x".data, timeout := 60 }
      "mode" ⟨false, .unsafeParam, []⟩ rfl (by decide) rfl (by decide) rfl
  · obtain ⟨v2, hv2, hs⟩ :=
      (C4_sanitizer c4wl "ping_cmd" [("target", "8.8.8.8")] "").2.2
        { params := ["target"],
          param_validators := [("target", ipValidatorEx)],
          cmd := c4template, timeout := 60 }
        ⟨true, .noErr, [("target", "8.8.8.8")]⟩ rfl rfl rfl "target"
        (by decide)
    have hv3 : v2 = "8.8.8.8" := by
      have : alGet [("target", ("8.8.8.8" : String))] "target" = some "8.8.8.8" := rfl
      rw [this] at hv2
      exact (Option.some_inj.mp hv2).symm
    rw [hv3] at hs
    exact hs

/-! ## C5 — FIFO pending queue -/

/-- A successful `queue_command` appends the signed command to the end of
the client's pending list (creating the list when absent) and touches no
other client's list. -/
theorem queue_command_ok_pending (wl : Whitelist) (clients : ClientStore)
    (cid cmdId : String) (params : StrDict) (admin uuid nonce : String)
    (now : Int) (st : ServerState) (s : PyDict)
    (h : (queue_command wl clients cid cmdId params admin uuid nonce now st).1
      = .ok s) :
    (queue_command wl clients cid cmdId params admin uuid nonce now st).2.pending
      = alSet st.pending cid ((alGet st.pending cid).getD [] ++ [s]) := by
  generalize hE :
    queue_command wl clients cid cmdId params admin uuid nonce now st = r at h ⊢
  unfold queue_command at hE
  repeat' split at hE
  all_goals subst hE
  all_goals first
    | (injection h with h2; rw [h2])
    | (exact absurd h (by simp))

/-- C5: queuing three commands for one client whose pending list starts
empty and popping three times yields them in arrival order; a fourth pop —
and any pop for a client with no list — yields `none` with the store
unchanged. -/
theorem C5_fifo (wl : Whitelist) (clients : ClientStore) (cid : String)
    (cmd1 cmd2 cmd3 : String) (p1 p2 p3 : StrDict)
    (ad1 ad2 ad3 u1 u2 u3 n1 n2 n3 : String) (t1 t2 t3 : Int)
    (st0 st1 st2 st3 : ServerState) (s1 s2 s3 : PyDict)
    (h0 : (alGet st0.pending cid).getD [] = [])
    (hs1 : queue_command wl clients cid cmd1 p1 ad1 u1 n1 t1 st0 = (.ok s1, st1))
    (hs2 : queue_command wl clients cid cmd2 p2 ad2 u2 n2 t2 st1 = (.ok s2, st2))
    (hs3 : queue_command wl clients cid cmd3 p3 ad3 u3 n3 t3 st2 = (.ok s3, st3)) :
    (pop_pending_command cid st3.pending).1 = some s1 ∧
    (pop_pending_command cid (pop_pending_command cid st3.pending).2).1 = some s2 ∧
    (pop_pending_command cid (pop_pending_command cid
      (pop_pending_command cid st3.pending).2).2).1 = some s3 ∧
    (pop_pending_command cid (pop_pending_command cid (pop_pending_command cid
      (pop_pending_command cid st3.pending).2).2).2).1 = none ∧
    (∀ (pend : List (String × List PyDict)) (cid2 : String),
      alGet pend cid2 = none → pop_pending_command cid2 pend = (none, pend)) := by
  have e1 : st1.pending = alSet st0.pending cid [s1] := by
    have hh := queue_command_ok_pending wl clients cid cmd1 p1 ad1 u1 n1 t1 st0
      s1 (by rw [hs1])
    rw [hs1, h0] at hh
    simpa using hh
  have g1 : alGet st1.pending cid = some [s1] := by
    rw [e1]; exact alGet_alSet_self _ _ _
  have e2 : st2.pending = alSet st1.pending cid [s1, s2] := by
    have hh := queue_command_ok_pending wl clients cid cmd2 p2 ad2 u2 n2 t2 st1
      s2 (by rw [hs2])
    rw [hs2, g1] at hh
    simpa using hh
  have g2 : alGet st2.pending cid = some [s1, s2] := by
    rw [e2]; exact alGet_alSet_self _ _ _
  have e3 : st3.pending = alSet st2.pending cid [s1, s2, s3] := by
    have hh := queue_command_ok_pending wl clients cid cmd3 p3 ad3 u3 n3 t3 st2
      s3 (by rw [hs3])
    rw [hs3, g2] at hh
    simpa using hh
  have g3 : alGet st3.pending cid = some [s1, s2, s3] := by
    rw [e3]; exact alGet_alSet_self _ _ _
  have pop1 : pop_pending_command cid st3.pending =
      (some s1, alSet st3.pending cid [s2, s3]) := by
    unfold pop_pending_command
    rw [g3]
  have gg2 : alGet (alSet st3.pending cid [s2, s3]) cid = some [s2, s3] :=
    alGet_alSet_self _ _ _
  have pop2 : pop_pending_command cid (alSet st3.pending cid [s2, s3]) =
      (some s2, alSet (alSet st3.pending cid [s2, s3]) cid [s3]) := by
    unfold pop_pending_command
    rw [gg2]
  have gg3 : alGet (alSet (alSet st3.pending cid [s2, s3]) cid [s3]) cid =
      some [s3] := alGet_alSet_self _ _ _
  have pop3 : pop_pending_command cid
      (alSet (alSet st3.pending cid [s2, s3]) cid [s3]) =
      (some s3, alSet (alSet (alSet st3.pending cid [s2, s3]) cid [s3]) cid []) := by
    unfold pop_pending_command
    rw [gg3]
  have gg4 : alGet (alSet (alSet (alSet st3.pending cid [s2, s3]) cid [s3])
      cid []) cid = some [] := alGet_alSet_self _ _ _
  have pop4 : (pop_pending_command cid (alSet (alSet (alSet st3.pending cid
      [s2, s3]) cid [s3]) cid [])).1 = none := by
    unfold pop_pending_command
    rw [gg4]
  refine ⟨by rw [pop1], by rw [pop1, pop2], by rw [pop1, pop2, pop3],
    by rw [pop1, pop2, pop3]; exact pop4, fun pend cid2 hn => ?_⟩
  unfold pop_pending_command
  rw [hn]

/-- C5 witness: an actual three-command run against a one-command whitelist
and a one-client store, popped back in order. -/
theorem C5_witness :
    (pop_pending_command "edge-01" c5q3.2.pending).1 = some c5s1 ∧
    (pop_pending_command "edge-01"
      (pop_pending_command "edge-01" c5q3.2.pending).2).1 = some c5s2 ∧
    (pop_pending_command "edge-01" (pop_pending_command "edge-01"
      (pop_pending_command "edge-01" c5q3.2.pending).2).2).1 = some c5s3 ∧
    (pop_pending_command "edge-01" (pop_pending_command "edge-01"
      (pop_pending_command "edge-01" (pop_pending_command "edge-01"
        c5q3.2.pending).2).2).2).1 = none ∧
    pop_pending_command "nobody" [] = (none, []) := by
  have hh := C5_fifo c5wl c5clients "edge-01" "echo_hello" "echo_hello"
    "echo_hello" c5params c5params c5params "adm" "adm" "adm" "u1" "u2" "u3"
    "no1" "no2" "no3" 5 6 7 emptyServerState c5q1.2 c5q2.2 c5q3.2 c5s1 c5s2
    c5s3 rfl rfl rfl rfl
  exact ⟨hh.1, hh.2.1, hh.2.2.1, hh.2.2.2.1, hh.2.2.2.2 [] "nobody" rfl⟩

/-! ## C2 — nonce single-use -/

/-- Recording a nonce makes it look up to its recording time. -/
theorem nonceGet_nonceSet_self (ns : NonceStore) (v : PyVal) (t : Int) :
    nonceGet (nonceSet ns v t) v = some t := by
  induction ns with
  | nil => simp [nonceSet, nonceGet, pyValBeq_refl]
  | cons e rest ih =>
    obtain ⟨k, t1⟩ := e
    by_cases h : pyValBeq k v = true
    · simp [nonceSet, nonceGet, h]
    · simp [nonceSet, nonceGet, h, ih]

/-- Filtering a nonce store cannot change what a key looks up to, as long
as the entry it finds is kept. -/
theorem nonceGet_filter (p : PyVal × Int → Bool) (ns : NonceStore) (v : PyVal)
    (t : Int) (hg : nonceGet ns v = some t)
    (hkeep : ∀ k, pyValBeq k v = true → p (k, t) = true) :
    nonceGet (ns.filter p) v = some t := by
  induction ns with
  | nil => simp [nonceGet] at hg
  | cons e rest ih =>
    obtain ⟨k, t1⟩ := e
    unfold nonceGet at hg
    by_cases h : pyValBeq k v = true
    · rw [if_pos h] at hg
      injection hg with ht1
      subst ht1
      rw [List.filter_cons_of_pos (hkeep k h)]
      unfold nonceGet
      rw [if_pos h]
    · rw [if_neg h] at hg
      by_cases hp : p (k, t1) = true
      · rw [List.filter_cons_of_pos hp]
        unfold nonceGet
        rw [if_neg h]
        exact ih hg
      · rw [List.filter_cons_of_neg (by simp [hp])]
        exact ih hg

/-- `mark_nonce_used` records the nonce at `now`: the opportunistic
garbage collection never removes the entry it just wrote. -/
theorem nonceGet_mark (now : Int) (v : PyVal) (ns : NonceStore) :
    nonceGet (mark_nonce_used now v ns) v = some now := by
  unfold mark_nonce_used cleanup_old_nonces
  refine nonceGet_filter _ _ _ _ (nonceGet_nonceSet_self ns v now) ?_
  intro k _
  simp [NONCE_EXPIRY_SECONDS]

/-- C2 (amended): with a fresh nonce, a valid signature and a timestamp
within tolerance, the first verification succeeds and records the nonce,
and a second verification of the same payload within the 600-second nonce
retention window returns false.  This holds as stated for the server-side
`verify_command_signature`; for the device-side re-implementation it holds
**provided both calls fall inside the same 600-second cache epoch**
(`now - nonce_cleanup_time ≤ 600` at each call) — the device purges its
whole nonce cache at epoch boundaries, which is what the counterexample
exploits. -/
theorem C2_nonce_single_use (cmd : PyDict) (secret : String) (ns : NonceStore)
    (nv : PyVal) (t now1 now2 : Int) (dst : DevState) :
    (alGet cmd "timestamp" = some (.int t) →
     alGet cmd "nonce" = some nv →
     alGet cmd "signature" =
       some (.str (create_signature (alRemove cmd "signature") secret)) →
     is_nonce_used ns nv = false →
     |now1 - t| ≤ TIMESTAMP_TOLERANCE_SECONDS →
     now2 - now1 ≤ NONCE_EXPIRY_SECONDS →
     (verify_command_signature cmd secret now1 ns).ok = true ∧
     is_nonce_used (verify_command_signature cmd secret now1 ns).nonces nv
       = true ∧
     (verify_command_signature cmd secret now2
       (verify_command_signature cmd secret now1 ns).nonces).ok = false) ∧
    (secret ≠ "" →
     alGet cmd "timestamp" = some (.int t) →
     alGet cmd "nonce" = some nv →
     alGet cmd "signature" =
       some (.str (create_signature (alRemove cmd "signature") secret)) →
     nonceMem nv dst.used_nonces = false →
     |now1 - t| ≤ 300 →
     now1 - dst.nonce_cleanup_time ≤ 600 →
     now2 - dst.nonce_cleanup_time ≤ 600 →
     (dev_verify_command_signature secret cmd now1 dst).ok = true ∧
     (dev_verify_command_signature secret cmd now2
       (dev_verify_command_signature secret cmd now1 dst).st).ok = false) := by
  constructor
  · intro ht hn hsig hfresh htol hret
    have hct : alContains cmd "timestamp" = true := by simp [alContains, ht]
    have hcn : alContains cmd "nonce" = true := by simp [alContains, hn]
    have hvs : verify_signature (alRemove cmd "signature")
        (create_signature (alRemove cmd "signature") secret) secret
        = some true := by
      unfold verify_signature
      rw [compare_digest_sig _ _ _ (strAscii_create_signature _ _)]
      simp
    have hused : is_nonce_used (mark_nonce_used now1 nv ns) nv = true := by
      simp [is_nonce_used, nonceGet_mark]
    have hr1 : verify_command_signature cmd secret now1 ns =
        ⟨true, .valid, alSet (alRemove cmd "signature") "signature"
          (.str (create_signature (alRemove cmd "signature") secret)),
         mark_nonce_used now1 nv ns⟩ := by
      unfold verify_command_signature
      rw [hct, hcn]
      rw [if_neg (by simp), if_neg (by simp)]
      simp only [hsig]
      simp only [hvs]
      rw [if_neg (by simp)]
      simp only [ht]
      rw [if_neg (not_lt.mpr htol)]
      simp only [hn]
      rw [if_neg (by simp [hfresh])]
    refine ⟨by rw [hr1], by rw [hr1]; exact hused, ?_⟩
    rw [hr1]
    unfold verify_command_signature
    rw [hct, hcn]
    rw [if_neg (by simp), if_neg (by simp)]
    simp only [hsig]
    simp only [hvs]
    rw [if_neg (by simp)]
    simp only [ht]
    by_cases h2 : TIMESTAMP_TOLERANCE_SECONDS < |now2 - t|
    · rw [if_pos h2]
    · rw [if_neg h2]
      simp only [hn]
      rw [if_pos hused]
  · intro hks ht hn hsig hfresh htol hep1 hep2
    have hct : alContains cmd "timestamp" = true := by simp [alContains, ht]
    have hcn : alContains cmd "nonce" = true := by simp [alContains, hn]
    have hcs : alContains cmd "signature" = true := by simp [alContains, hsig]
    have hcd : compare_digest (create_signature (alRemove cmd "signature") secret)
        (create_signature (alRemove cmd "signature") secret) = some true := by
      rw [compare_digest_sig _ _ _ (strAscii_create_signature _ _)]
      simp
    have hr1 : dev_verify_command_signature secret cmd now1 dst =
        ⟨true, .valid, ⟨nv :: dst.used_nonces, dst.nonce_cleanup_time⟩⟩ := by
      unfold dev_verify_command_signature
      rw [if_neg hks]
      rw [hct, hcn, hcs]
      rw [if_neg (by simp), if_neg (by simp), if_neg (by simp)]
      simp only [hsig]
      simp only [hcd]
      rw [if_neg (by simp)]
      simp only [ht]
      rw [if_neg (not_lt.mpr htol), if_neg (not_lt.mpr hep1)]
      unfold dev_nonce_phase
      simp only [hn]
      rw [if_neg (by simp [hfresh])]
    refine ⟨by rw [hr1], ?_⟩
    rw [hr1]
    unfold dev_verify_command_signature
    rw [if_neg hks]
    rw [hct, hcn, hcs]
    rw [if_neg (by simp), if_neg (by simp), if_neg (by simp)]
    simp only [hsig]
    simp only [hcd]
    rw [if_neg (by simp)]
    simp only [ht]
    by_cases h2 : (300 : Int) < |now2 - t|
    · rw [if_pos h2]
    · rw [if_neg h2, if_neg (not_lt.mpr hep2)]
      unfold dev_nonce_phase
      simp only [hn]
      rw [if_pos (by simp [nonceMem, pyValBeq_refl])]

/-- C2 counterexample: the device-side half of the claim as stated — a
second otherwise-valid verification of the same payload within the
600-second retention window always returns false — is wrong.  With the
cache epoch starting at time 0, a first call at 599 records the nonce, and
a replay two seconds later (601) first triggers the lazy purge
(`601 - 0 > 600` clears the *entire* cache), after which the same nonce
verifies as fresh again. -/
theorem C2_counterexample :
    ¬ (∀ (secret : String) (cmd : PyDict) (nv : PyVal) (t now1 now2 : Int)
        (dst : DevState),
        secret ≠ "" →
        alGet cmd "timestamp" = some (.int t) →
        alGet cmd "nonce" = some nv →
        alGet cmd "signature" =
          some (.str (create_signature (alRemove cmd "signature") secret)) →
        nonceMem nv dst.used_nonces = false →
        |now1 - t| ≤ 300 → |now2 - t| ≤ 300 →
        now2 - now1 ≤ 600 →
        (dev_verify_command_signature secret cmd now1 dst).ok = true →
        (dev_verify_command_signature secret cmd now2
          (dev_verify_command_signature secret cmd now1 dst).st).ok = false) := by
  intro h
  have hcd : compare_digest (create_signature c2cexBase "k")
      (create_signature c2cexBase "k") = some true := by
    rw [compare_digest_sig _ _ _ (strAscii_create_signature _ _)]
    simp
  have hstrip : alRemove c2cexCmd "signature" = c2cexBase := rfl
  have hr1 : dev_verify_command_signature "k" c2cexCmd 599 ⟨[], 0⟩ =
      ⟨true, .valid, ⟨[.str "n"], 0⟩⟩ := by
    unfold dev_verify_command_signature
    rw [if_neg (by decide)]
    simp only [show alContains c2cexCmd "timestamp" = true from rfl,
      show alContains c2cexCmd "nonce" = true from rfl,
      show alContains c2cexCmd "signature" = true from rfl,
      show alGet c2cexCmd "signature" =
        some (.str (create_signature c2cexBase "k")) from rfl, hstrip, hcd,
      show alGet c2cexCmd "timestamp" = some (.int 400) from rfl,
      show alGet c2cexCmd "nonce" = some (.str "n") from rfl]
    norm_num [dev_nonce_phase, nonceMem,
      show alGet c2cexCmd "nonce" = some (.str "n") from rfl]
  have hr2 : (dev_verify_command_signature "k" c2cexCmd 601
      ⟨[.str "n"], 0⟩).ok = true := by
    unfold dev_verify_command_signature
    rw [if_neg (by decide)]
    simp only [show alContains c2cexCmd "timestamp" = true from rfl,
      show alContains c2cexCmd "nonce" = true from rfl,
      show alContains c2cexCmd "signature" = true from rfl,
      show alGet c2cexCmd "signature" =
        some (.str (create_signature c2cexBase "k")) from rfl, hstrip, hcd,
      show alGet c2cexCmd "timestamp" = some (.int 400) from rfl]
    norm_num [dev_nonce_phase, nonceMem,
      show alGet c2cexCmd "nonce" = some (.str "n") from rfl]
  have h2 := h "k" c2cexCmd (.str "n") 400 599 601 ⟨[], 0⟩ (by decide) rfl rfl
    (by rw [hstrip]; exact rfl) rfl (by decide) (by decide) (by decide)
    (by rw [hr1])
  rw [hr1] at h2
  rw [hr2] at h2
  cases h2

/-- C2 witness: a concrete signed payload replayed against the server store
and against a device cache inside one epoch. -/
theorem C2_witness :
    (verify_command_signature c2cmd "sek" 1100 []).ok = true ∧
    is_nonce_used (verify_command_signature c2cmd "sek" 1100 []).nonces
      (.str "n-abc") = true ∧
    (verify_command_signature c2cmd "sek" 1200
      (verify_command_signature c2cmd "sek" 1100 []).nonces).ok = false ∧
    (dev_verify_command_signature "sek" c2cmd 1100 ⟨[], 900⟩).ok = true ∧
    (dev_verify_command_signature "sek" c2cmd 1200
      (dev_verify_command_signature "sek" c2cmd 1100 ⟨[], 900⟩).st).ok = false := by
  have hsrv := (C2_nonce_single_use c2cmd "sek" [] (.str "n-abc") 1000 1100 1200
    ⟨[], 900⟩).1 rfl rfl rfl rfl (by decide) (by decide)
  have hdev := (C2_nonce_single_use c2cmd "sek" [] (.str "n-abc") 1000 1100 1200
    ⟨[], 900⟩).2 (by decide) rfl rfl rfl rfl (by decide) (by decide) (by decide)
  exact ⟨hsrv.1, hsrv.2.1, hsrv.2.2, hdev.1, hdev.2⟩

/-! ## C9 — validator boundaries

The ip half needs the exact language of the embedded validator; the lemmas
below relate Python `int()` on digit groups, `str.split('.')` on a string
with one trailing character, and the validator's octet loop. -/

theorem splitDot_ne_nil : ∀ s : List Char, splitDot s ≠ []
  | [] => by simp [splitDot]
  | c :: rest => by
    unfold splitDot
    by_cases h : c = '.'
    · simp [h]
    · rw [if_neg h]
      rcases hE : splitDot rest with _ | ⟨g, gs⟩
      · simp
      · simp

theorem modifyLast_cons_of_ne_nil (f : List Char → List Char) (g : List Char)
    (gs : List (List Char)) (h : gs ≠ []) :
    modifyLast f (g :: gs) = g :: modifyLast f gs := by
  cases gs with
  | nil => cases h rfl
  | cons g2 rest => rfl

theorem splitDot_append_single (c : Char) (hc : ¬ c = '.') (s : List Char) :
    splitDot (s ++ [c]) = modifyLast (fun g => g ++ [c]) (splitDot s) := by
  induction s with
  | nil => simp [splitDot, hc, modifyLast]
  | cons d rest ih =>
    by_cases hd : d = '.'
    · subst hd
      show splitDot ('.' :: (rest ++ [c])) = _
      unfold splitDot
      rw [if_pos rfl, if_pos rfl, ih,
        modifyLast_cons_of_ne_nil _ _ _ (splitDot_ne_nil rest)]
    · show splitDot (d :: (rest ++ [c])) = _
      unfold splitDot
      rw [if_neg hd, if_neg hd, ih]
      rcases hE : splitDot rest with _ | ⟨g0, gs0⟩
      · exact absurd hE (splitDot_ne_nil rest)
      · cases gs0 with
        | nil => simp [modifyLast]
        | cons g1 gs1 => simp [modifyLast]

theorem eq_dropLast_append (s : List Char) (c : Char)
    (h : s.getLast? = some c) : s = s.dropLast ++ [c] := by
  induction s with
  | nil => cases h
  | cons a rest ih =>
    cases rest with
    | nil =>
      simp [List.getLast?] at h
      simp [h]
    | cons b rest2 =>
      rw [List.getLast?_cons_cons] at h
      have := ih h
      calc a :: b :: rest2 = a :: ((b :: rest2).dropLast ++ [c]) := by rw [← this]
        _ = (a :: b :: rest2).dropLast ++ [c] := by simp

theorem pyWs_of_isDig (c : Char) (h : isDig c = true) : pyWs c = false := by
  unfold isDig at h
  rw [decide_eq_true_eq] at h
  unfold pyWs
  rw [decide_eq_false_iff_not]
  rintro (h2 | h2 | h2 | h2 | h2 | h2)
  · subst h2; exact absurd h (by decide)
  all_goals omega

theorem dropWhile_eq_self_of_digits (l : List Char) (h : l.all isDig = true) :
    l.dropWhile pyWs = l := by
  cases l with
  | nil => rfl
  | cons c rest =>
    rw [List.all_cons, Bool.and_eq_true] at h
    rw [List.dropWhile_cons, pyWs_of_isDig c h.1]
    simp

theorem digitsGo_digits (l : List Char) :
    ∀ acc : Nat, l.all isDig = true →
      digitsGo acc l = some (l.foldl (fun a c => a * 10 + (c.toNat - 48)) acc) := by
  induction l with
  | nil => intro acc _; rfl
  | cons c rest ih =>
    intro acc h
    rw [List.all_cons, Bool.and_eq_true] at h
    unfold digitsGo
    rw [if_pos h.1]
    rw [ih _ h.2]
    rfl

theorem digitsVal_digits (g : List Char) (hne : g ≠ [])
    (hd : g.all isDig = true) : digitsVal g = some (digitsValue g) := by
  cases g with
  | nil => cases hne rfl
  | cons c rest =>
    rw [List.all_cons, Bool.and_eq_true] at hd
    show (if isDig c = true then digitsGo (c.toNat - 48) rest else none) = _
    rw [if_pos hd.1, digitsGo_digits rest _ hd.2]
    unfold digitsValue
    rw [List.foldl_cons]
    simp

theorem isDig_ne_plus (c : Char) (h : isDig c = true) : ¬ c = '+' := by
  unfold isDig at h
  rw [decide_eq_true_eq] at h
  intro h2
  subst h2
  exact absurd h (by decide)

theorem isDig_ne_minus (c : Char) (h : isDig c = true) : ¬ c = '-' := by
  unfold isDig at h
  rw [decide_eq_true_eq] at h
  intro h2
  subst h2
  exact absurd h (by decide)

theorem pyIntParse_digits (g : List Char) (hne : g ≠ [])
    (hd : g.all isDig = true) :
    pyIntParse g = some (Int.ofNat (digitsValue g)) := by
  have hrev : g.reverse.all isDig = true := by
    rw [List.all_reverse]; exact hd
  have hstrip : ((g.dropWhile pyWs).reverse.dropWhile pyWs).reverse = g := by
    rw [dropWhile_eq_self_of_digits g hd, dropWhile_eq_self_of_digits _ hrev,
      List.reverse_reverse]
  cases g with
  | nil => cases hne rfl
  | cons c rest =>
    have hc : isDig c = true := by
      rw [List.all_cons, Bool.and_eq_true] at hd
      exact hd.1
    unfold pyIntParse
    simp only [hstrip]
    rw [if_neg (isDig_ne_plus c hc), if_neg (isDig_ne_minus c hc),
      digitsVal_digits _ hne hd]
    rfl

theorem pyIntParse_digits_newline (g : List Char) (hne : g ≠ [])
    (hd : g.all isDig = true) :
    pyIntParse (g ++ [Char.ofNat 10]) = some (Int.ofNat (digitsValue g)) := by
  have hdropl : (g ++ [Char.ofNat 10]).dropWhile pyWs = g ++ [Char.ofNat 10] := by
    cases g with
    | nil => cases hne rfl
    | cons c rest =>
      have hc : isDig c = true := by
        rw [List.all_cons, Bool.and_eq_true] at hd
        exact hd.1
      rw [List.cons_append, List.dropWhile_cons, pyWs_of_isDig c hc]
      simp
  have hrev : (g ++ [Char.ofNat 10]).reverse = Char.ofNat 10 :: g.reverse := by
    simp
  have hstrip : (((g ++ [Char.ofNat 10]).dropWhile pyWs).reverse.dropWhile
      pyWs).reverse = g := by
    rw [hdropl, hrev, List.dropWhile_cons,
      show pyWs (Char.ofNat 10) = true from by decide, if_pos rfl,
      dropWhile_eq_self_of_digits _ (by rw [List.all_reverse]; exact hd),
      List.reverse_reverse]
  cases g with
  | nil => cases hne rfl
  | cons c rest =>
    have hc : isDig c = true := by
      rw [List.all_cons, Bool.and_eq_true] at hd
      exact hd.1
    unfold pyIntParse
    simp only [hstrip]
    rw [if_neg (isDig_ne_plus c hc), if_neg (isDig_ne_minus c hc),
      digitsVal_digits _ hne hd]
    rfl

theorem ipOctetsOk_digits (groups : List (List Char))
    (h : ∀ g ∈ groups, g ≠ [] ∧ g.all isDig = true) :
    ipOctetsOk groups =
      .ok (groups.all fun g => decide (digitsValue g ≤ 255)) := by
  induction groups with
  | nil => rfl
  | cons g rest ih =>
    obtain ⟨hne, hd⟩ := h g (List.mem_cons_self _ _)
    unfold ipOctetsOk
    simp only [pyIntParse_digits g hne hd]
    by_cases hv : (255 : Int) < Int.ofNat (digitsValue g)
    · rw [if_pos hv]
      have hdec : decide (digitsValue g ≤ 255) = false := by
        rw [decide_eq_false_iff_not]
        simp only [Int.ofNat_eq_natCast] at hv
        omega
      rw [List.all_cons, hdec, Bool.false_and]
    · rw [if_neg hv]
      have hdec : decide (digitsValue g ≤ 255) = true := by
        rw [decide_eq_true_eq]
        simp only [Int.ofNat_eq_natCast] at hv
        omega
      rw [List.all_cons, hdec, Bool.true_and]
      exact ih fun g2 hg2 => h g2 (List.mem_cons_of_mem _ hg2)

theorem ipOctetsOk_digits_newline (groups : List (List Char))
    (h : ∀ g ∈ groups, g ≠ [] ∧ g.all isDig = true) :
    ipOctetsOk (modifyLast (fun g => g ++ [Char.ofNat 10]) groups) =
      .ok (groups.all fun g => decide (digitsValue g ≤ 255)) := by
  induction groups with
  | nil => rfl
  | cons g tail ih =>
    obtain ⟨hne, hd⟩ := h g (List.mem_cons_self _ _)
    cases tail with
    | nil =>
      show ipOctetsOk [g ++ [Char.ofNat 10]] = _
      unfold ipOctetsOk
      simp only [pyIntParse_digits_newline g hne hd]
      by_cases hv : (255 : Int) < Int.ofNat (digitsValue g)
      · rw [if_pos hv]
        have hdec : decide (digitsValue g ≤ 255) = false := by
          rw [decide_eq_false_iff_not]
          simp only [Int.ofNat_eq_natCast] at hv
          omega
        rw [List.all_cons, hdec, Bool.false_and]
      · rw [if_neg hv]
        have hdec : decide (digitsValue g ≤ 255) = true := by
          rw [decide_eq_true_eq]
          simp only [Int.ofNat_eq_natCast] at hv
          omega
        rw [List.all_cons, hdec, Bool.true_and]
        rfl
    | cons g2 rest =>
      show ipOctetsOk (g :: modifyLast _ (g2 :: rest)) = _
      unfold ipOctetsOk
      simp only [pyIntParse_digits g hne hd]
      by_cases hv : (255 : Int) < Int.ofNat (digitsValue g)
      · rw [if_pos hv]
        have hdec : decide (digitsValue g ≤ 255) = false := by
          rw [decide_eq_false_iff_not]
          simp only [Int.ofNat_eq_natCast] at hv
          omega
        rw [List.all_cons, hdec, Bool.false_and]
      · rw [if_neg hv]
        have hdec : decide (digitsValue g ≤ 255) = true := by
          rw [decide_eq_true_eq]
          simp only [Int.ofNat_eq_natCast] at hv
          omega
        rw [List.all_cons, hdec, Bool.true_and]
        exact ih fun g3 hg3 => h g3 (List.mem_cons_of_mem _ hg3)

theorem all_false_modifyLast (q : List Char → Bool)
    (hq : ∀ x, q (x ++ [Char.ofNat 10]) = false) :
    ∀ gs : List (List Char), gs ≠ [] →
      (modifyLast (fun g => g ++ [Char.ofNat 10]) gs).all q = false := by
  intro gs
  induction gs with
  | nil => intro h; cases h rfl
  | cons g tail ih =>
    intro _
    cases tail with
    | nil => simp [modifyLast, hq]
    | cons g2 rest =>
      rw [modifyLast_cons_of_ne_nil _ _ _ (by simp), List.all_cons,
        ih (by simp), Bool.and_false]

theorem coreGroupPred_newline_false (x : List Char) :
    (decide (1 ≤ (x ++ [Char.ofNat 10]).length) &&
     decide ((x ++ [Char.ofNat 10]).length ≤ 3) &&
     (x ++ [Char.ofNat 10]).all isDig) = false := by
  have : (x ++ [Char.ofNat 10]).all isDig = false := by
    rw [List.all_append]
    have : isDig (Char.ofNat 10) = false := by decide
    simp [this]
  rw [this, Bool.and_false]

theorem ipCore_append_newline (s : List Char) :
    ipCore (s ++ [Char.ofNat 10]) = false := by
  unfold ipCore
  rw [splitDot_append_single _ (by decide) s]
  rw [all_false_modifyLast _ coreGroupPred_newline_false _ (splitDot_ne_nil s),
    Bool.and_false]

theorem groupsOkPred_newline_false (x : List Char) :
    (decide (1 ≤ (x ++ [Char.ofNat 10]).length) &&
     decide ((x ++ [Char.ofNat 10]).length ≤ 3) &&
     (x ++ [Char.ofNat 10]).all isDig &&
     decide (digitsValue (x ++ [Char.ofNat 10]) ≤ 255)) = false := by
  rw [coreGroupPred_newline_false, Bool.false_and]

theorem ipGroupsOk_append_newline (s : List Char) :
    ipGroupsOk (s ++ [Char.ofNat 10]) = false := by
  unfold ipGroupsOk
  rw [splitDot_append_single _ (by decide) s]
  rw [all_false_modifyLast _ groupsOkPred_newline_false _ (splitDot_ne_nil s),
    Bool.and_false]

theorem all_and_of_all {α : Type} (p q : α → Bool) (l : List α)
    (hp : l.all p = true) :
    (l.all fun a => p a && q a) = l.all q := by
  induction l with
  | nil => rfl
  | cons a rest ih =>
    rw [List.all_cons, Bool.and_eq_true] at hp
    rw [List.all_cons, List.all_cons, hp.1, Bool.true_and, ih hp.2]

theorem ipGroupsOk_of_core (s : List Char) (hc : ipCore s = true) :
    ipGroupsOk s = (splitDot s).all fun g => decide (digitsValue g ≤ 255) := by
  unfold ipCore at hc
  rw [Bool.and_eq_true] at hc
  unfold ipGroupsOk
  rw [hc.1, Bool.true_and]
  exact all_and_of_all _ _ _ hc.2

theorem ipGroupsOk_imp_core (s : List Char) (h : ipGroupsOk s = true) :
    ipCore s = true := by
  unfold ipGroupsOk at h
  unfold ipCore
  rw [Bool.and_eq_true] at h ⊢
  refine ⟨h.1, ?_⟩
  rw [List.all_eq_true] at h ⊢
  intro g hg
  have := h.2 g hg
  rw [Bool.and_eq_true] at this
  exact this.1

theorem ipCore_parts (s : List Char) (hc : ipCore s = true) :
    ∀ g ∈ splitDot s, g ≠ [] ∧ g.all isDig = true := by
  unfold ipCore at hc
  rw [Bool.and_eq_true] at hc
  have := hc.2
  rw [List.all_eq_true] at this
  intro g hg
  have h2 := this g hg
  rw [Bool.and_eq_true, Bool.and_eq_true] at h2
  obtain ⟨⟨h3, _⟩, h5⟩ := h2
  rw [decide_eq_true_eq] at h3
  exact ⟨List.ne_nil_of_length_pos (by omega), h5⟩

/-- C9 counterexample: the ip validator does not accept exactly the
strings of four dot-separated integer groups in 0–255: the regex
`\d\x7b1,3\x7d` refuses the four-digit group of `0000.0.0.0`, whose groups
all denote integers in range. -/
theorem C9_counterexample :
    ¬ (∀ v : String, (validate_param_value v ipValidatorEx = Except.ok true) ↔
        claimIpLang v.data = true) := by
  intro h
  have h1 := (h "0000.0.0.0").2 (by decide)
  have h2 : validate_param_value "0000.0.0.0" ipValidatorEx =
      Except.ok false := rfl
  rw [h2] at h1
  injection h1 with h3
  cases h3

/-- C9 (amended): the ip validator accepts exactly the strings of four
dot-separated groups of **one to three** digits, each of value at most
255, optionally followed by one trailing newline (a Python `$`-anchor
artifact); and it never raises.  The integer validator with range
`[lo, hi]` accepts exactly the strings that Python `int()` parses to a
value `n` with `lo ≤ n ≤ hi`. -/
theorem C9_validator_boundary :
    (∀ v : String,
      validate_param_value v ipValidatorEx = .ok (amendedIpLang v.data)) ∧
    (∀ (v : String) (lo hi : Int),
      validate_param_value v (intValidatorRange lo hi) =
        .ok (match pyIntParse v.data with
             | some n => decide (lo ≤ n) && decide (n ≤ hi)
             | none => false)) := by
  constructor
  · intro v
    show (if ¬ pyDollarMatch ipCore v.data then Except.ok false
          else ipOctetsOk (splitDot v.data)) = .ok (amendedIpLang v.data)
    rcases hlast : v.data.getLast? with _ | c
    · have hd : pyDollarMatch ipCore v.data = ipCore v.data := by
        simp [pyDollarMatch, hlast]
      have ha : amendedIpLang v.data = ipGroupsOk v.data := by
        simp [amendedIpLang, hlast]
      rw [hd, ha]
      by_cases hcore : ipCore v.data = true
      · rw [if_neg (by rw [hcore]; simp), ipGroupsOk_of_core _ hcore]
        exact ipOctetsOk_digits _ (ipCore_parts _ hcore)
      · rw [if_pos (by simpa using hcore)]
        rcases hgo : ipGroupsOk v.data with _ | _
        · rfl
        · exact absurd (ipGroupsOk_imp_core _ hgo) hcore
    · by_cases hnl : c = Char.ofNat 10
      · subst hnl
        have hsp : v.data = v.data.dropLast ++ [Char.ofNat 10] :=
          eq_dropLast_append _ _ hlast
        rw [hsp]
        have hcoreF := ipCore_append_newline v.data.dropLast
        have hgoF := ipGroupsOk_append_newline v.data.dropLast
        have hd : pyDollarMatch ipCore (v.data.dropLast ++ [Char.ofNat 10]) =
            ipCore v.data.dropLast := by
          unfold pyDollarMatch
          rw [hcoreF]
          simp
        have ha : amendedIpLang (v.data.dropLast ++ [Char.ofNat 10]) =
            ipGroupsOk v.data.dropLast := by
          unfold amendedIpLang
          rw [hgoF]
          simp
        rw [hd, ha]
        by_cases hcore : ipCore v.data.dropLast = true
        · rw [if_neg (by rw [hcore]; simp),
            splitDot_append_single _ (by decide) v.data.dropLast,
            ipGroupsOk_of_core _ hcore]
          exact ipOctetsOk_digits_newline _ (ipCore_parts _ hcore)
        · rw [if_pos (by simpa using hcore)]
          rcases hgo : ipGroupsOk v.data.dropLast with _ | _
          · rfl
          · exact absurd (ipGroupsOk_imp_core _ hgo) hcore
      · have hd : pyDollarMatch ipCore v.data = ipCore v.data := by
          unfold pyDollarMatch
          rw [hlast]
          simp [hnl]
        have ha : amendedIpLang v.data = ipGroupsOk v.data := by
          unfold amendedIpLang
          rw [hlast]
          simp [hnl]
        rw [hd, ha]
        by_cases hcore : ipCore v.data = true
        · rw [if_neg (by rw [hcore]; simp), ipGroupsOk_of_core _ hcore]
          exact ipOctetsOk_digits _ (ipCore_parts _ hcore)
        · rw [if_pos (by simpa using hcore)]
          rcases hgo : ipGroupsOk v.data with _ | _
          · rfl
          · exact absurd (ipGroupsOk_imp_core _ hgo) hcore
  · intro v lo hi
    show (match pyIntParse v.data with
          | none => Except.ok false
          | some n =>
            Except.ok ((match (intValidatorRange lo hi).vmin with
              | some lo2 => decide (lo2 ≤ n)
              | none => true)
              && (match (intValidatorRange lo hi).vmax with
                  | some hi2 => decide (n ≤ hi2)
                  | none => true))) = _
    rcases hp : pyIntParse v.data with _ | n <;> rfl

/-- C9 witness: the amended characterization evaluated on the claim's own
boundary examples. -/
theorem C9_witness :
    validate_param_value "255.255.255.255" ipValidatorEx = .ok true ∧
    validate_param_value "256.0.0.1" ipValidatorEx = .ok false ∧
    validate_param_value "1.2.3" ipValidatorEx = .ok false ∧
    validate_param_value "80" (intValidatorRange 1 65535) = .ok true ∧
    validate_param_value "0" (intValidatorRange 1 65535) = .ok false ∧
    validate_param_value "70000" (intValidatorRange 1 65535) = .ok false ∧
    validate_param_value "abc" (intValidatorRange 1 65535) = .ok false := by
  have h1 := C9_validator_boundary.1 "255.255.255.255"
  have h2 := C9_validator_boundary.1 "256.0.0.1"
  have h3 := C9_validator_boundary.1 "1.2.3"
  have h4 := C9_validator_boundary.2 "80" 1 65535
  have h5 := C9_validator_boundary.2 "0" 1 65535
  have h6 := C9_validator_boundary.2 "70000" 1 65535
  have h7 := C9_validator_boundary.2 "abc" 1 65535
  refine ⟨?_, ?_, ?_, ?_, ?_, ?_, ?_⟩
  · rw [h1]; exact congrArg Except.ok (by decide)
  · rw [h2]; exact congrArg Except.ok (by decide)
  · rw [h3]; exact congrArg Except.ok (by decide)
  · rw [h4]; exact congrArg Except.ok (by decide)
  · rw [h5]; exact congrArg Except.ok (by decide)
  · rw [h6]; exact congrArg Except.ok (by decide)
  · rw [h7]; exact congrArg Except.ok (by decide)

/-! ## C1 — signature round-trip and the collision caveat

The round trip always verifies, and a mutated payload verifies against the
old signature exactly when the two HMAC digests coincide.  Coincide they
must, for some pair of distinct payloads: the digest space is finite
(32 bytes) while the payload space is not, so the claim's universal
"mutating any field makes verify return false" is refutable by
pigeonhole — without, of course, exhibiting a concrete collision. -/

theorem regsBytes_length (h : Regs) : (regsBytes h).length = 32 := rfl

theorem sha256_length (msg : List Nat) : (sha256 msg).length = 32 :=
  regsBytes_length _

theorem hmacSha256_length (key msg : List Nat) :
    (hmacSha256 key msg).length = 32 :=
  sha256_length _

theorem mem_wordBytes_lt (w b : Nat) (h : b ∈ wordBytes w) : b < 256 := by
  simp [wordBytes] at h
  rcases h with h | h | h | h <;> subst h <;> exact Nat.mod_lt _ (by norm_num)

theorem mem_regsBytes_lt (hst : Regs) (b : Nat) (h : b ∈ regsBytes hst) :
    b < 256 := by
  simp only [regsBytes, List.mem_append] at h
  rcases h with ((((((h | h) | h) | h) | h) | h) | h) | h <;>
    exact mem_wordBytes_lt _ _ h

theorem mem_sha256_lt (msg : List Nat) (b : Nat) (h : b ∈ sha256 msg) :
    b < 256 :=
  mem_regsBytes_lt _ _ h

theorem mem_hmacSha256_lt (key msg : List Nat) (b : Nat)
    (h : b ∈ hmacSha256 key msg) : b < 256 :=
  mem_sha256_lt _ _ h

theorem list_eq_of_getD_mod_eq (A B : List Nat) (hA : A.length = 32)
    (hB : B.length = 32) (hAb : ∀ b ∈ A, b < 256) (hBb : ∀ b ∈ B, b < 256)
    (heq : ∀ i : Fin 32, A.getD i.val 0 % 256 = B.getD i.val 0 % 256) :
    A = B := by
  apply List.ext_getElem (by rw [hA, hB])
  intro i h1 h2
  have hv := heq ⟨i, by omega⟩
  have e1 : A.getD i 0 = A[i] := List.getD_eq_getElem A 0 h1
  have e2 : B.getD i 0 = B[i] := List.getD_eq_getElem B 0 h2
  rw [e1, e2] at hv
  have m1 : A[i] % 256 = A[i] := Nat.mod_eq_of_lt (hAb _ (List.getElem_mem h1))
  have m2 : B[i] % 256 = B[i] := Nat.mod_eq_of_lt (hBb _ (List.getElem_mem h2))
  rw [m1, m2] at hv
  exact hv

/-- Equal byte-reading functions force equal digests. -/
theorem sigBytes_eq_of_fn_eq (S : String) (n m : Nat)
    (h : sigFn S n = sigFn S m) :
    signatureBytes (payloadOfLen n) S = signatureBytes (payloadOfLen m) S := by
  apply list_eq_of_getD_mod_eq _ _ (hmacSha256_length _ _)
    (hmacSha256_length _ _)
    (fun b hb => mem_hmacSha256_lt _ _ _ hb)
    (fun b hb => mem_hmacSha256_lt _ _ _ hb)
  intro i
  have hv := congrArg Fin.val (congrFun h i)
  simp only [sigFn] at hv
  exact hv

theorem payloadOfLen_value_ne (n m : Nat) (h : n ≠ m) :
    PyVal.str (String.mk (List.replicate m 'x')) ≠
      PyVal.str (String.mk (List.replicate n 'x')) := by
  intro he
  injection he with he2
  have h3 := congrArg (fun s => s.data.length) he2
  simp only [List.length_replicate] at h3
  exact h h3.symm

/-- C1 counterexample: the claim that mutating any field of a signed
payload always makes `verify_signature` return false is wrong in
principle.  The payloads `\x7b"a": "xx…x"\x7d` (one per length) are
infinitely many, the HMAC-SHA256 digest has only 32 bytes, so two distinct
lengths share a digest; replacing the value of field `"a"` of the one by
the value of the other is a field mutation the old signature still
verifies. -/
theorem C1_counterexample :
    ¬ (∀ (P : PyDict) (S : String) (k : String) (old v2 : PyVal),
        alGet P "signature" = none →
        alGet P k = some old → v2 ≠ old →
        verify_signature (alSet P k v2) (create_signature P S) S
          = some false) := by
  intro h
  obtain ⟨n, m, hnm, hfn⟩ := Finite.exists_ne_map_eq_of_infinite (sigFn "s")
  have hbytes := sigBytes_eq_of_fn_eq "s" n m hfn
  have hsig : create_signature (payloadOfLen n) "s" =
      create_signature (payloadOfLen m) "s" := by
    unfold create_signature
    rw [hbytes]
  have hset : alSet (payloadOfLen n) "a"
      (PyVal.str (String.mk (List.replicate m 'x'))) = payloadOfLen m := by
    simp [payloadOfLen, alSet]
  have h2 := h (payloadOfLen n) "s" "a"
    (PyVal.str (String.mk (List.replicate n 'x')))
    (PyVal.str (String.mk (List.replicate m 'x')))
    (by simp [payloadOfLen, alGet])
    (by simp [payloadOfLen, alGet])
    (payloadOfLen_value_ne n m hnm)
  rw [hset] at h2
  have h3 : verify_signature (payloadOfLen m)
      (create_signature (payloadOfLen n) "s") "s" = some true := by
    rw [hsig]
    unfold verify_signature
    rw [compare_digest_sig _ _ _ (strAscii_create_signature _ _)]
    simp
  rw [h2] at h3
  exact Bool.noConfusion (Option.some.inj h3)

/-- C1 (amended): the round trip always verifies, and verifying a payload
`P2` against `P`'s signature returns exactly the constant-time comparison
of the two digests — true precisely when `P2`'s HMAC-SHA256 digest equals
`P`'s (so any mutation that changes the digest is rejected, and only an
HMAC collision is not). -/
theorem C1_signature_roundtrip (P P2 : PyDict) (S : String) :
    verify_signature P (create_signature P S) S = some true ∧
    verify_signature P2 (create_signature P S) S =
      compare_digest (create_signature P S) (create_signature P2 S) ∧
    (compare_digest (create_signature P S) (create_signature P2 S)
        = some true ↔
      create_signature P S = create_signature P2 S) := by
  refine ⟨?_, rfl, ?_⟩
  · unfold verify_signature
    rw [compare_digest_sig _ _ _ (strAscii_create_signature _ _)]
    simp
  · rw [compare_digest_sig _ _ _ (strAscii_create_signature _ _)]
    simp

end RB
